import Mathlib

/-!
Verification development for a DNS wire-format codec and recursive resolver.

The Rust sources are embedded shallowly:
* machine integers (`u8`, `u16`, `u32`, `usize`) become `Nat`, with `% 2^w`
  (or `&&& (2^w - 1)`) inserted exactly where the source performs an `as`
  cast or a wrapping operation;
* `Result<T, BytePacketBufferError>` becomes `Except BytePacketBufferError T`;
* `&mut self` methods become state-passing functions returning the updated
  `BytePacketBuffer`;
* Rust `String` values (domain names) are modelled as their byte sequences
  (`List Nat`); the spec restricts names to ASCII, where this is exact.
-/

set_option maxRecDepth 8192
set_option linter.unusedVariables false
set_option linter.unnecessarySeqFocus false
set_option linter.unreachableTactic false
set_option linter.unusedTactic false

/-- Error type of the cursor layer, from `byte_packet_buffer_error.rs`.
The `i32`/`usize` payloads are modelled as `Nat`. -/
inductive BytePacketBufferError where
  | ExceededJumpCount (jumps : Nat)
  | EndOfBuffer
  | UnhandledDnsQueryType
  | QueryLabelNameLengthExceeded (index : Nat) (length : Nat)
  | QueryDomainNameLengthExceeded (size : Nat)
deriving DecidableEq

/-- Record/query type codes, from `query_type.rs`. -/
inductive QueryType where
  | UNKNOWN (code : Nat)
  | A
  | NS
  | MD
  | MF
  | CNAME
  | SOA
  | MB
  | MG
  | MR
  | NULL
  | WKS
  | PTR
  | HINFO
  | MINFO
  | MX
  | TXT
  | AAAA
  | AXFR
  | MAILB
  | MAILA
  | EVERYTHING
deriving DecidableEq

/-- QueryType::to_num from `query_type.rs`. -/
def QueryType.toNum : QueryType → Nat
  | .UNKNOWN x => x
  | .A => 1
  | .NS => 2
  | .MD => 3
  | .MF => 4
  | .CNAME => 5
  | .SOA => 6
  | .MB => 7
  | .MG => 8
  | .MR => 9
  | .NULL => 10
  | .WKS => 11
  | .PTR => 12
  | .HINFO => 13
  | .MINFO => 14
  | .MX => 15
  | .TXT => 16
  | .AAAA => 28
  | .AXFR => 252
  | .MAILB => 253
  | .MAILA => 254
  | .EVERYTHING => 255

/-- QueryType::from_num from `query_type.rs`. -/
def QueryType.fromNum (num : Nat) : QueryType :=
  match num with
  | 1 => .A
  | 2 => .NS
  | 3 => .MD
  | 4 => .MF
  | 5 => .CNAME
  | 6 => .SOA
  | 7 => .MB
  | 8 => .MG
  | 9 => .MR
  | 10 => .NULL
  | 11 => .WKS
  | 12 => .PTR
  | 13 => .HINFO
  | 14 => .MINFO
  | 15 => .MX
  | 16 => .TXT
  | 252 => .AXFR
  | 253 => .MAILB
  | 254 => .MAILA
  | 255 => .EVERYTHING
  | _ => .UNKNOWN num

/-- Record/query class codes, from `query_class.rs`. -/
inductive QueryClass where
  | UNKNOWN (code : Nat)
  | IN
  | CS
  | CH
  | HS
deriving DecidableEq

/-- QueryClass::to_num from `query_class.rs`. -/
def QueryClass.toNum : QueryClass → Nat
  | .UNKNOWN x => x
  | .IN => 1
  | .CS => 2
  | .CH => 3
  | .HS => 4

/-- QueryClass::from_num from `query_class.rs`. -/
def QueryClass.fromNum (num : Nat) : QueryClass :=
  match num with
  | 1 => .IN
  | 2 => .CS
  | 3 => .CH
  | 4 => .HS
  | _ => .UNKNOWN num

/-- Response result codes from `result_code.rs`.  `main.rs` refers to the
same six codes by their on-the-wire aliases NOERROR/FORMERR/SERVFAIL/
NXDOMAIN; NXDOMAIN is `NameError` (value 3). -/
inductive ResultCode where
  | NoError
  | FormatError
  | ServerFailure
  | NameError
  | NotImplemented
  | REFUSED
deriving DecidableEq

/-- Numeric value of a ResultCode (the Rust enum discriminant, used by
`rescode as u8` in `dns_header.rs`). -/
def ResultCode.toNum : ResultCode → Nat
  | .NoError => 0
  | .FormatError => 1
  | .ServerFailure => 2
  | .NameError => 3
  | .NotImplemented => 4
  | .REFUSED => 5

/-- ResultCode::from_num from `result_code.rs`; every value other than 1-5
maps to NoError. -/
def ResultCode.fromNum (num : Nat) : ResultCode :=
  match num with
  | 1 => .FormatError
  | 2 => .ServerFailure
  | 3 => .NameError
  | 4 => .NotImplemented
  | 5 => .REFUSED
  | _ => .NoError

/-- IPv4 address as its four octets (std::net::Ipv4Addr, used by A records). -/
structure Ipv4Addr where
  o1 : Nat
  o2 : Nat
  o3 : Nat
  o4 : Nat
deriving DecidableEq

/-- IPv6 address as its eight 16-bit segments (std::net::Ipv6Addr, used by
AAAA records). -/
structure Ipv6Addr where
  s1 : Nat
  s2 : Nat
  s3 : Nat
  s4 : Nat
  s5 : Nat
  s6 : Nat
  s7 : Nat
  s8 : Nat
deriving DecidableEq

/-- The cursor from `byte_packet_buffer.rs`: a 512-octet array and a
position.  The array is a `List Nat` of length 512; `position` is a `usize`. -/
structure BytePacketBuffer where
  buffer : List Nat
  position : Nat
deriving DecidableEq

/-- Result type used by the cursor layer. -/
abbrev BResult (α : Type) := Except BytePacketBufferError α

namespace BytePacketBuffer

/-- BytePacketBuffer::new: fresh zeroed buffer at position 0. -/
def new : BytePacketBuffer := ⟨List.replicate 512 0, 0⟩

/-- BytePacketBuffer::step: unchecked forward step of the position. -/
def step (b : BytePacketBuffer) (n : Nat) : BytePacketBuffer :=
  { b with position := b.position + n }

/-- BytePacketBuffer::seek: unchecked absolute repositioning. -/
def seek (b : BytePacketBuffer) (pos : Nat) : BytePacketBuffer :=
  { b with position := pos }

/-- BytePacketBuffer::read: one byte at the position, advancing by one;
EndOfBuffer when the position is at or past 512, checked before access. -/
def read (b : BytePacketBuffer) : BResult (Nat × BytePacketBuffer) :=
  if 512 ≤ b.position then .error .EndOfBuffer
  else .ok (b.buffer.getD b.position 0, step b 1)

/-- BytePacketBuffer::get: peek one byte at an absolute offset; EndOfBuffer
at or past 512, checked before access. -/
def get (b : BytePacketBuffer) (pos : Nat) : BResult Nat :=
  if 512 ≤ pos then .error .EndOfBuffer
  else .ok (b.buffer.getD pos 0)

/-- BytePacketBuffer::get_range: the slice `buffer[start..start+len]`;
EndOfBuffer whenever `start + len >= 512` (the source's comparison). -/
def getRange (b : BytePacketBuffer) (start len : Nat) : BResult (List Nat) :=
  if 512 ≤ start + len then .error .EndOfBuffer
  else .ok ((b.buffer.drop start).take len)

/-- BytePacketBuffer::read_u16: two reads combined big-endian. -/
def readU16 (b : BytePacketBuffer) : BResult (Nat × BytePacketBuffer) :=
  match read b with
  | .error e => .error e
  | .ok (x1, b) =>
    match read b with
    | .error e => .error e
    | .ok (x2, b) => .ok ((x1 <<< 8) ||| x2, b)

/-- BytePacketBuffer::read_u32: four reads combined big-endian. -/
def readU32 (b : BytePacketBuffer) : BResult (Nat × BytePacketBuffer) :=
  match read b with
  | .error e => .error e
  | .ok (x1, b) =>
    match read b with
    | .error e => .error e
    | .ok (x2, b) =>
      match read b with
      | .error e => .error e
      | .ok (x3, b) =>
        match read b with
        | .error e => .error e
        | .ok (x4, b) =>
          .ok ((((x1 <<< 24) ||| (x2 <<< 16)) ||| (x3 <<< 8)) ||| x4, b)

/-- Byte-level model of Rust's ASCII lowercasing of one byte, as applied by
`to_lowercase` inside read_qname; exact on the ASCII names the spec
prescribes. -/
def lowerChar (ch : Nat) : Nat :=
  if 65 ≤ ch ∧ ch ≤ 90 then ch + 32 else ch

/-- Loop body of BytePacketBuffer::read_qname, with an explicit fuel
parameter standing for the source's unbounded `loop`; `none` means the fuel
ran out (proved unreachable for fuel 4096 below).  State: the shared buffer,
the local read position, the `jumped` flag, the number of jumps performed,
the pending label delimiter and the accumulated name bytes. -/
def readQnameLoop (b : BytePacketBuffer) (cp : Nat) (jumped : Bool)
    (jumps : Nat) (delim : List Nat) (acc : List Nat) :
    Nat → Option (BResult (List Nat × BytePacketBuffer))
  | 0 => none
  | fuel + 1 =>
    if 5 < jumps then some (.error (.ExceededJumpCount 5))
    else
      match get b cp with
      | .error e => some (.error e)
      | .ok wordLength =>
        if wordLength &&& 192 = 192 then
          let b := if !jumped then seek b (cp + 2) else b
          match get b (cp + 1) with
          | .error e => some (.error e)
          | .ok secondByte =>
            let offset := ((wordLength ^^^ 192) <<< 8) ||| secondByte
            readQnameLoop b offset true (jumps + 1) delim acc fuel
        else
          let cp := cp + 1
          if wordLength = 0 then
            some (.ok (acc, if !jumped then seek b cp else b))
          else
            match getRange b cp wordLength with
            | .error e => some (.error e)
            | .ok strBuffer =>
              readQnameLoop b (cp + wordLength) jumped jumps [46]
                (acc ++ delim ++ strBuffer.map lowerChar) fuel

/-- BytePacketBuffer::read_qname.  Fuel 4096 is proved sufficient
(readQnameLoop never returns `none` with it), so the default is
unreachable. -/
def readQname (b : BytePacketBuffer) : BResult (List Nat × BytePacketBuffer) :=
  (readQnameLoop b b.position false 0 [] [] 4096).getD (.error .EndOfBuffer)

/-- BytePacketBuffer::write: store one byte at the position (as u8, hence
`% 256`) and advance; EndOfBuffer at or past 512, checked before access. -/
def write (b : BytePacketBuffer) (value : Nat) : BResult BytePacketBuffer :=
  if 512 ≤ b.position then .error .EndOfBuffer
  else .ok { buffer := b.buffer.set b.position (value % 256),
             position := b.position + 1 }

/-- BytePacketBuffer::write_u8: alias of write. -/
def writeU8 (b : BytePacketBuffer) (value : Nat) : BResult BytePacketBuffer :=
  write b value

/-- BytePacketBuffer::write_u16: big-endian, two writes. -/
def writeU16 (b : BytePacketBuffer) (val : Nat) : BResult BytePacketBuffer :=
  match write b (val >>> 8) with
  | .error e => .error e
  | .ok b => write b (val &&& 255)

/-- BytePacketBuffer::write_u32: big-endian, four writes. -/
def writeU32 (b : BytePacketBuffer) (val : Nat) : BResult BytePacketBuffer :=
  match write b ((val >>> 24) &&& 255) with
  | .error e => .error e
  | .ok b =>
    match write b ((val >>> 16) &&& 255) with
    | .error e => .error e
    | .ok b =>
      match write b ((val >>> 8) &&& 255) with
      | .error e => .error e
      | .ok b => write b (val &&& 255)

/-- Modelled from the spec: `BytePacketBuffer::set` is called (via set_u16)
by DnsRecord::write but absent from byte_packet_buffer.rs.  Spec section 4.1:
patch a byte at an absolute offset; every offset touching or exceeding
capacity fails with OutOfBounds before any access occurs. -/
def set (b : BytePacketBuffer) (pos : Nat) (value : Nat) :
    BResult BytePacketBuffer :=
  if 512 ≤ pos then .error .EndOfBuffer
  else .ok { b with buffer := b.buffer.set pos (value % 256) }

/-- Modelled from the spec: `BytePacketBuffer::set_u16` is called by
DnsRecord::write but absent from byte_packet_buffer.rs.  Spec section 4.1:
patch a u16 at an absolute offset (used to backfill a record's data length),
big-endian like the other primitives, bounds-checked per octet. -/
def setU16 (b : BytePacketBuffer) (pos : Nat) (val : Nat) :
    BResult BytePacketBuffer :=
  match set b pos (val >>> 8) with
  | .error e => .error e
  | .ok b => set b (pos + 1) (val &&& 255)

/-- Byte-level model of Rust's `value.split(".")` on a String: split the
byte sequence on byte 46.  Exact, since `.` is a single ASCII byte and
UTF-8 continuation bytes are all at least 128. -/
def splitOnDot : List Nat → List (List Nat)
  | [] => [[]]
  | ch :: rest =>
    if ch = 46 then [] :: splitOnDot rest
    else
      match splitOnDot rest with
      | [] => [[ch]]
      | l :: ls => (ch :: l) :: ls

/-- Inner byte loop `for x in value.as_bytes()` of write_question_name. -/
def writeLabelBytes (b : BytePacketBuffer) : List Nat → BResult BytePacketBuffer
  | [] => .ok b
  | x :: xs =>
    match writeU8 b x with
    | .error e => .error e
    | .ok b => writeLabelBytes b xs

/-- Label-writing loop of BytePacketBuffer::write_question_name: for each
label (with its enumerate index), check the 63-octet limit, write the
length octet then the label bytes. -/
def writeLabels (b : BytePacketBuffer) (labels : List (List Nat))
    (index : Nat) : BResult BytePacketBuffer :=
  match labels with
  | [] => .ok b
  | label :: rest =>
    if 63 < label.length then
      .error (.QueryLabelNameLengthExceeded index label.length)
    else
      match writeU8 b label.length with
      | .error e => .error e
      | .ok b =>
        match writeLabelBytes b label with
        | .error e => .error e
        | .ok b => writeLabels b rest (index + 1)

/-- BytePacketBuffer::write_question_name: reject names longer than 255
octets, then write each dot-separated label as (length, bytes), checking
the 63-octet label limit, and terminate with a zero octet. -/
def writeQuestionName (b : BytePacketBuffer) (value : List Nat) :
    BResult BytePacketBuffer :=
  if 255 < value.length then
    .error (.QueryDomainNameLengthExceeded value.length)
  else
    match writeLabels b (splitOnDot value) 0 with
    | .error e => .error e
    | .ok b => writeU8 b 0

end BytePacketBuffer

/-- The DNS header from `dns_header.rs`: id, flags, result code and the
four section counts (all u16/u8 fields as `Nat`, bit flags as `Bool`). -/
structure DnsHeader where
  id : Nat
  recursion_desired : Bool
  recursion_available : Bool
  truncated_message : Bool
  authoritative_answer : Bool
  opcode : Nat
  response : Bool
  rescode : ResultCode
  checking_disabled : Bool
  authed_data : Bool
  z : Bool
  questions : Nat
  answers : Nat
  authoritative_entries : Nat
  resource_entries : Nat
deriving DecidableEq

/-- DnsHeader::new: all-zero header. -/
def DnsHeader.new : DnsHeader :=
  ⟨0, false, false, false, false, 0, false, .NoError, false, false, false,
   0, 0, 0, 0⟩

/-- First flag octet as assembled by DnsHeader::write: rd bit 0, tc bit 1,
aa bit 2, opcode bits 3-6 (the u8 shift wraps, hence `% 256`), qr bit 7. -/
def DnsHeader.flagsOctetA (h : DnsHeader) : Nat :=
  h.recursion_desired.toNat
    ||| (h.truncated_message.toNat <<< 1)
    ||| (h.authoritative_answer.toNat <<< 2)
    ||| ((h.opcode <<< 3) % 256)
    ||| (h.response.toNat <<< 7)

/-- Second flag octet as assembled by DnsHeader::write: rcode bits 0-3,
cd bit 4, ad bit 5, z bit 6, ra bit 7. -/
def DnsHeader.flagsOctetB (h : DnsHeader) : Nat :=
  h.rescode.toNum
    ||| (h.checking_disabled.toNat <<< 4)
    ||| (h.authed_data.toNat <<< 5)
    ||| (h.z.toNat <<< 6)
    ||| (h.recursion_available.toNat <<< 7)

/-- DnsHeader::read from `dns_header.rs`. -/
def DnsHeader.read (b : BytePacketBuffer) :
    BResult (DnsHeader × BytePacketBuffer) :=
  match BytePacketBuffer.readU16 b with
  | .error e => .error e
  | .ok (idVal, b) =>
    match BytePacketBuffer.readU16 b with
    | .error e => .error e
    | .ok (flags, b) =>
      let a := (flags >>> 8) % 256
      let b2 := flags &&& 255
      match BytePacketBuffer.readU16 b with
      | .error e => .error e
      | .ok (qd, b) =>
        match BytePacketBuffer.readU16 b with
        | .error e => .error e
        | .ok (an, b) =>
          match BytePacketBuffer.readU16 b with
          | .error e => .error e
          | .ok (ns, b) =>
            match BytePacketBuffer.readU16 b with
            | .error e => .error e
            | .ok (ar, b) =>
              .ok ({ id := idVal
                     recursion_desired := decide (0 < (a &&& (1 <<< 0)))
                     truncated_message := decide (0 < (a &&& (1 <<< 1)))
                     authoritative_answer := decide (0 < (a &&& (1 <<< 2)))
                     opcode := (a >>> 3) &&& 15
                     response := decide (0 < (a &&& (1 <<< 7)))
                     rescode := ResultCode.fromNum (b2 &&& 15)
                     checking_disabled := decide (0 < (b2 &&& (1 <<< 4)))
                     authed_data := decide (0 < (b2 &&& (1 <<< 5)))
                     z := decide (0 < (b2 &&& (1 <<< 6)))
                     recursion_available := decide (0 < (b2 &&& (1 <<< 7)))
                     questions := qd
                     answers := an
                     authoritative_entries := ns
                     resource_entries := ar }, b)

/-- DnsHeader::write from `dns_header.rs`: id, the two flag octets, then
the four counts, in order. -/
def DnsHeader.write (h : DnsHeader) (b : BytePacketBuffer) :
    BResult BytePacketBuffer :=
  match BytePacketBuffer.writeU16 b h.id with
  | .error e => .error e
  | .ok b =>
    match BytePacketBuffer.writeU8 b h.flagsOctetA with
    | .error e => .error e
    | .ok b =>
      match BytePacketBuffer.writeU8 b h.flagsOctetB with
      | .error e => .error e
      | .ok b =>
        match BytePacketBuffer.writeU16 b h.questions with
        | .error e => .error e
        | .ok b =>
          match BytePacketBuffer.writeU16 b h.answers with
          | .error e => .error e
          | .ok b =>
            match BytePacketBuffer.writeU16 b h.authoritative_entries with
            | .error e => .error e
            | .ok b => BytePacketBuffer.writeU16 b h.resource_entries

/-- The question from `dns_question.rs`: name, type, class. -/
structure DnsQuestion where
  q_name : List Nat
  q_type : QueryType
  q_class : QueryClass
deriving DecidableEq

/-- DnsQuestion::read.  The source calls `buffer.read_question_name()`,
which is absent from byte_packet_buffer.rs; modelled from the spec: the
question codec reads the name with the section-4.1 name decode
(read_qname).  Type and class are then read as u16 and converted with
from_num. -/
def DnsQuestion.read (b : BytePacketBuffer) :
    BResult (DnsQuestion × BytePacketBuffer) :=
  match BytePacketBuffer.readQname b with
  | .error e => .error e
  | .ok (name, b) =>
    match BytePacketBuffer.readU16 b with
    | .error e => .error e
    | .ok (t, b) =>
      match BytePacketBuffer.readU16 b with
      | .error e => .error e
      | .ok (c, b) =>
        .ok (⟨name, QueryType.fromNum t, QueryClass.fromNum c⟩, b)

/-- DnsQuestion::write: name, then `q_type.to_num()` and
`q_class.to_num()` as u16. -/
def DnsQuestion.write (q : DnsQuestion) (b : BytePacketBuffer) :
    BResult BytePacketBuffer :=
  match BytePacketBuffer.writeQuestionName b q.q_name with
  | .error e => .error e
  | .ok b =>
    match BytePacketBuffer.writeU16 b q.q_type.toNum with
    | .error e => .error e
    | .ok b => BytePacketBuffer.writeU16 b q.q_class.toNum

/-- The resource record from `dns_record.rs` (closed tagged union). -/
inductive DnsRecord where
  | UNHANDLED (domain : List Nat) (qtype : QueryType) (data_len : Nat)
      (ttl : Nat)
  | A (domain : List Nat) (addr : Ipv4Addr) (ttl : Nat)
  | NS (domain : List Nat) (host : List Nat) (ttl : Nat)
  | CNAME (domain : List Nat) (host : List Nat) (ttl : Nat)
  | MX (domain : List Nat) (preference : Nat) (host : List Nat) (ttl : Nat)
  | AAAA (domain : List Nat) (addr : Ipv6Addr) (ttl : Nat)
deriving DecidableEq

/-- DnsRecord::read: name, type, discarded class, ttl, data length, then
the type dispatch; unhandled types skip `data_len` octets with the
unchecked `step`. -/
def DnsRecord.read (b : BytePacketBuffer) :
    BResult (DnsRecord × BytePacketBuffer) :=
  match BytePacketBuffer.readQname b with
  | .error e => .error e
  | .ok (domain, b) =>
    match BytePacketBuffer.readU16 b with
    | .error e => .error e
    | .ok (qtypeNum, b) =>
      match BytePacketBuffer.readU16 b with
      | .error e => .error e
      | .ok (_, b) =>
        match BytePacketBuffer.readU32 b with
        | .error e => .error e
        | .ok (ttl, b) =>
          match BytePacketBuffer.readU16 b with
          | .error e => .error e
          | .ok (dataLen, b) =>
            match QueryType.fromNum qtypeNum with
            | .A =>
              match BytePacketBuffer.readU32 b with
              | .error e => .error e
              | .ok (rawAddr, b) =>
                .ok (.A domain
                      ⟨(rawAddr >>> 24) &&& 255, (rawAddr >>> 16) &&& 255,
                       (rawAddr >>> 8) &&& 255, (rawAddr >>> 0) &&& 255⟩
                      ttl, b)
            | .AAAA =>
              match BytePacketBuffer.readU32 b with
              | .error e => .error e
              | .ok (raw1, b) =>
                match BytePacketBuffer.readU32 b with
                | .error e => .error e
                | .ok (raw2, b) =>
                  match BytePacketBuffer.readU32 b with
                  | .error e => .error e
                  | .ok (raw3, b) =>
                    match BytePacketBuffer.readU32 b with
                    | .error e => .error e
                    | .ok (raw4, b) =>
                      .ok (.AAAA domain
                            ⟨(raw1 >>> 16) &&& 65535, (raw1 >>> 0) &&& 65535,
                             (raw2 >>> 16) &&& 65535, (raw2 >>> 0) &&& 65535,
                             (raw3 >>> 16) &&& 65535, (raw3 >>> 0) &&& 65535,
                             (raw4 >>> 16) &&& 65535, (raw4 >>> 0) &&& 65535⟩
                            ttl, b)
            | .NS =>
              match BytePacketBuffer.readQname b with
              | .error e => .error e
              | .ok (host, b) => .ok (.NS domain host ttl, b)
            | .CNAME =>
              match BytePacketBuffer.readQname b with
              | .error e => .error e
              | .ok (host, b) => .ok (.CNAME domain host ttl, b)
            | .MX =>
              match BytePacketBuffer.readU16 b with
              | .error e => .error e
              | .ok (priority, b) =>
                match BytePacketBuffer.readQname b with
                | .error e => .error e
                | .ok (host, b) => .ok (.MX domain priority host ttl, b)
            | _ =>
              .ok (.UNHANDLED domain (QueryType.fromNum qtypeNum) dataLen ttl,
                   BytePacketBuffer.step b dataLen)

/-- Segment loop `for octet in &addr.segments()` of the AAAA branch of
DnsRecord::write. -/
def writeSegments (b : BytePacketBuffer) :
    List Nat → BResult BytePacketBuffer
  | [] => .ok b
  | s :: rest =>
    match BytePacketBuffer.writeU16 b s with
    | .error e => .error e
    | .ok b => writeSegments b rest

/-- DnsRecord::write: per-variant serialization; A/AAAA write fixed data
lengths, NS/CNAME/MX reserve a two-octet length slot and patch it with
set_u16 afterwards, UNHANDLED records are skipped (diagnostic print only).
Returns the number of octets written, as the source does. -/
def DnsRecord.write (r : DnsRecord) (b : BytePacketBuffer) :
    BResult (Nat × BytePacketBuffer) :=
  let startPos := b.position
  match r with
  | .A domain addr ttl =>
    match BytePacketBuffer.writeQuestionName b domain with
    | .error e => .error e
    | .ok b =>
      match BytePacketBuffer.writeU16 b QueryType.A.toNum with
      | .error e => .error e
      | .ok b =>
        match BytePacketBuffer.writeU16 b 1 with
        | .error e => .error e
        | .ok b =>
          match BytePacketBuffer.writeU32 b ttl with
          | .error e => .error e
          | .ok b =>
            match BytePacketBuffer.writeU16 b 4 with
            | .error e => .error e
            | .ok b =>
              match BytePacketBuffer.writeU8 b addr.o1 with
              | .error e => .error e
              | .ok b =>
                match BytePacketBuffer.writeU8 b addr.o2 with
                | .error e => .error e
                | .ok b =>
                  match BytePacketBuffer.writeU8 b addr.o3 with
                  | .error e => .error e
                  | .ok b =>
                    match BytePacketBuffer.writeU8 b addr.o4 with
                    | .error e => .error e
                    | .ok b => .ok (b.position - startPos, b)
  | .UNHANDLED _ _ _ _ => .ok (b.position - startPos, b)
  | .NS domain host ttl =>
    match BytePacketBuffer.writeQuestionName b domain with
    | .error e => .error e
    | .ok b =>
      match BytePacketBuffer.writeU16 b QueryType.NS.toNum with
      | .error e => .error e
      | .ok b =>
        match BytePacketBuffer.writeU16 b QueryClass.IN.toNum with
        | .error e => .error e
        | .ok b =>
          match BytePacketBuffer.writeU32 b ttl with
          | .error e => .error e
          | .ok b =>
            let pos := b.position
            match BytePacketBuffer.writeU16 b 0 with
            | .error e => .error e
            | .ok b =>
              match BytePacketBuffer.writeQuestionName b host with
              | .error e => .error e
              | .ok b =>
                let size := (b.position - (pos + 2)) % 65536
                match BytePacketBuffer.setU16 b pos size with
                | .error e => .error e
                | .ok b => .ok (b.position - startPos, b)
  | .CNAME domain host ttl =>
    match BytePacketBuffer.writeQuestionName b domain with
    | .error e => .error e
    | .ok b =>
      match BytePacketBuffer.writeU16 b QueryType.CNAME.toNum with
      | .error e => .error e
      | .ok b =>
        match BytePacketBuffer.writeU16 b QueryClass.IN.toNum with
        | .error e => .error e
        | .ok b =>
          match BytePacketBuffer.writeU32 b ttl with
          | .error e => .error e
          | .ok b =>
            let pos := b.position
            match BytePacketBuffer.writeU16 b 0 with
            | .error e => .error e
            | .ok b =>
              match BytePacketBuffer.writeQuestionName b host with
              | .error e => .error e
              | .ok b =>
                let size := (b.position - (pos + 2)) % 65536
                match BytePacketBuffer.setU16 b pos size with
                | .error e => .error e
                | .ok b => .ok (b.position - startPos, b)
  | .MX domain priority host ttl =>
    match BytePacketBuffer.writeQuestionName b domain with
    | .error e => .error e
    | .ok b =>
      match BytePacketBuffer.writeU16 b QueryType.MX.toNum with
      | .error e => .error e
      | .ok b =>
        match BytePacketBuffer.writeU16 b QueryClass.IN.toNum with
        | .error e => .error e
        | .ok b =>
          match BytePacketBuffer.writeU32 b ttl with
          | .error e => .error e
          | .ok b =>
            let pos := b.position
            match BytePacketBuffer.writeU16 b 0 with
            | .error e => .error e
            | .ok b =>
              match BytePacketBuffer.writeU16 b priority with
              | .error e => .error e
              | .ok b =>
                match BytePacketBuffer.writeQuestionName b host with
                | .error e => .error e
                | .ok b =>
                  let size := (b.position - (pos + 2)) % 65536
                  match BytePacketBuffer.setU16 b pos size with
                  | .error e => .error e
                  | .ok b => .ok (b.position - startPos, b)
  | .AAAA domain addr ttl =>
    match BytePacketBuffer.writeQuestionName b domain with
    | .error e => .error e
    | .ok b =>
      match BytePacketBuffer.writeU16 b QueryType.AAAA.toNum with
      | .error e => .error e
      | .ok b =>
        match BytePacketBuffer.writeU16 b QueryClass.IN.toNum with
        | .error e => .error e
        | .ok b =>
          match BytePacketBuffer.writeU32 b ttl with
          | .error e => .error e
          | .ok b =>
            match BytePacketBuffer.writeU16 b 16 with
            | .error e => .error e
            | .ok b =>
              match writeSegments b
                  [addr.s1, addr.s2, addr.s3, addr.s4,
                   addr.s5, addr.s6, addr.s7, addr.s8] with
              | .error e => .error e
              | .ok b => .ok (b.position - startPos, b)

/-- The packet from `dns_packet.rs`: header plus the four sections. -/
structure DnsPacket where
  header : DnsHeader
  questions : List DnsQuestion
  answers : List DnsRecord
  authorities : List DnsRecord
  resources : List DnsRecord
deriving DecidableEq

/-- DnsPacket::new: empty packet. -/
def DnsPacket.new : DnsPacket := ⟨DnsHeader.new, [], [], [], []⟩

/-- DnsPacket::get_random_a: the first A-record address among the answers
(the `.next()` of the filter stream). -/
def DnsPacket.getRandomA (p : DnsPacket) : Option Ipv4Addr :=
  (p.answers.filterMap (fun r =>
    match r with
    | .A _ addr _ => some addr
    | _ => none)).head?

/-- DnsPacket::get_ns: (domain, host) pairs of the authority-section NS
records whose domain is a suffix of the question name
(`question_name.ends_with(domain)`). -/
def DnsPacket.getNS (p : DnsPacket) (questionName : List Nat) :
    List (List Nat × List Nat) :=
  (p.authorities.filterMap (fun r =>
    match r with
    | .NS domain host _ => some (domain, host)
    | _ => none)).filter (fun x => x.1.isSuffixOf questionName)

/-- DnsPacket::get_resolved_ns: the first additional-section A-record
address whose domain equals the host of an applicable NS record. -/
def DnsPacket.getResolvedNS (p : DnsPacket) (questionName : List Nat) :
    Option Ipv4Addr :=
  ((p.getNS questionName).flatMap (fun x =>
    p.resources.filterMap (fun r =>
      match r with
      | .A domain addr _ => if domain = x.2 then some addr else none
      | _ => none))).head?

/-- DnsPacket::get_unresolved_ns: the host of the first applicable NS
record. -/
def DnsPacket.getUnresolvedNS (p : DnsPacket) (qname : List Nat) :
    Option (List Nat) :=
  ((p.getNS qname).map (fun x => x.2)).head?

/-- Question-section loop of DnsPacket::from_buffer
(`for _ in 0..result.header.questions`). -/
def readQuestions (n : Nat) (b : BytePacketBuffer) :
    BResult (List DnsQuestion × BytePacketBuffer) :=
  match n with
  | 0 => .ok ([], b)
  | n + 1 =>
    match DnsQuestion.read b with
    | .error e => .error e
    | .ok (q, b) =>
      match readQuestions n b with
      | .error e => .error e
      | .ok (qs, b) => .ok (q :: qs, b)

/-- Record-section loop of DnsPacket::from_buffer (used for the answer,
authority and additional sections). -/
def readRecords (n : Nat) (b : BytePacketBuffer) :
    BResult (List DnsRecord × BytePacketBuffer) :=
  match n with
  | 0 => .ok ([], b)
  | n + 1 =>
    match DnsRecord.read b with
    | .error e => .error e
    | .ok (r, b) =>
      match readRecords n b with
      | .error e => .error e
      | .ok (rs, b) => .ok (r :: rs, b)

/-- DnsPacket::from_buffer: header, then exactly the counted number of
questions, answers, authority and additional records, in order. -/
def DnsPacket.fromBuffer (b : BytePacketBuffer) :
    BResult (DnsPacket × BytePacketBuffer) :=
  match DnsHeader.read b with
  | .error e => .error e
  | .ok (h, b) =>
    match readQuestions h.questions b with
    | .error e => .error e
    | .ok (qs, b) =>
      match readRecords h.answers b with
      | .error e => .error e
      | .ok (ans, b) =>
        match readRecords h.authoritative_entries b with
        | .error e => .error e
        | .ok (auth, b) =>
          match readRecords h.resource_entries b with
          | .error e => .error e
          | .ok (res, b) => .ok (⟨h, qs, ans, auth, res⟩, b)

/-- Question-section loop of DnsPacket::write. -/
def writeQuestions (qs : List DnsQuestion) (b : BytePacketBuffer) :
    BResult BytePacketBuffer :=
  match qs with
  | [] => .ok b
  | q :: rest =>
    match DnsQuestion.write q b with
    | .error e => .error e
    | .ok b => writeQuestions rest b

/-- Record-section loop of DnsPacket::write (the returned size of each
record write is discarded, as in the source). -/
def writeRecords (rs : List DnsRecord) (b : BytePacketBuffer) :
    BResult BytePacketBuffer :=
  match rs with
  | [] => .ok b
  | r :: rest =>
    match DnsRecord.write r b with
    | .error e => .error e
    | .ok (_, b) => writeRecords rest b

/-- DnsPacket::write: overwrite the four header counts with the section
lengths (`len() as u16`, hence `% 65536`), write the header, then the four
sections in order. -/
def DnsPacket.write (p : DnsPacket) (b : BytePacketBuffer) :
    BResult BytePacketBuffer :=
  let h := { p.header with
              questions := p.questions.length % 65536
              answers := p.answers.length % 65536
              authoritative_entries := p.authorities.length % 65536
              resource_entries := p.resources.length % 65536 }
  match DnsHeader.write h b with
  | .error e => .error e
  | .ok b =>
    match writeQuestions p.questions b with
    | .error e => .error e
    | .ok b =>
      match writeRecords p.answers b with
      | .error e => .error e
      | .ok b =>
        match writeRecords p.authorities b with
        | .error e => .error e
        | .ok b => writeRecords p.resources b

/-- Serialization of a packet as the byte sequence actually sent:
`packet.write` into a fresh buffer, then `buffer[0..position]` (as in
`lookup` and `handle_query` in main.rs). -/
def encodeToBytes (p : DnsPacket) : BResult (List Nat) :=
  match DnsPacket.write p BytePacketBuffer.new with
  | .error e => .error e
  | .ok b => .ok (b.buffer.take b.position)

/-- A fresh 512-octet buffer filled with a received byte sequence, as
`recv_from` leaves it (payload followed by the zeroed remainder). -/
def bufferFromBytes (bs : List Nat) : BytePacketBuffer :=
  ⟨bs ++ List.replicate (512 - bs.length) 0, 0⟩

/-- Decoding of a received byte sequence: DnsPacket::from_buffer on a fresh
buffer holding it. -/
def decodePacket (bs : List Nat) : BResult DnsPacket :=
  match DnsPacket.fromBuffer (bufferFromBytes bs) with
  | .error e => .error e
  | .ok (p, _) => .ok p

/-- Decode a byte sequence and re-encode the resulting packet: the
composition the round-trip property is about. -/
def decodeThenEncode (bs : List Nat) : BResult (List Nat) :=
  match decodePacket bs with
  | .error e => .error e
  | .ok p => encodeToBytes p

/-- Failure type of the resolution engine model: a transport or parse
failure propagated by `?` in main.rs, or exhaustion of the explicit fuel
that stands for the source's unbounded loop/recursion. -/
inductive ResolveError where
  | transport
  | outOfFuel
deriving DecidableEq

/-- The fixed root server a.root-servers.net = 198.41.0.4 from
recursive_lookup in main.rs. -/
def rootServer : Ipv4Addr := ⟨198, 41, 0, 4⟩

/-- Modelled from the spec (section 2: network I/O is an injected
capability): recursive_lookup from main.rs, with the upstream network
abstracted as the sequence of responses the successive `lookup` calls
produce: each round trip consumes the head of `responses` (`none` standing
for a transport/parse failure, which `?` propagates).  The explicit fuel
stands for the unbounded `loop`/recursion; each iteration or nested call
consumes one unit.  Returns the result together with the unconsumed
responses.  The comparisons with NOERROR/NXDOMAIN in main.rs are the
NoError/NameError codes of result_code.rs. -/
def recursiveLookupFrom (fuel : Nat) (questionName : List Nat)
    (questionType : QueryType) (ns : Ipv4Addr)
    (responses : List (Option DnsPacket)) :
    Except ResolveError (DnsPacket × List (Option DnsPacket)) :=
  match fuel with
  | 0 => .error .outOfFuel
  | fuel + 1 =>
    match responses with
    | [] => .error .transport
    | none :: _ => .error .transport
    | some response :: rest =>
      if !response.answers.isEmpty && response.header.rescode == ResultCode.NoError then
        .ok (response, rest)
      else if response.header.rescode == ResultCode.NameError then
        .ok (response, rest)
      else
        match response.getResolvedNS questionName with
        | some newNs => recursiveLookupFrom fuel questionName questionType newNs rest
        | none =>
          match response.getUnresolvedNS questionName with
          | none => .ok (response, rest)
          | some newNsName =>
            match recursiveLookupFrom fuel newNsName .A rootServer rest with
            | .error e => .error e
            | .ok (recursiveResponse, rest2) =>
              match recursiveResponse.getRandomA with
              | some newNs =>
                recursiveLookupFrom fuel questionName questionType newNs rest2
              | none => .ok (response, rest2)

/-- recursive_lookup(question_name, question_type): the loop above started
at the fixed root server. -/
def recursiveLookup (fuel : Nat) (questionName : List Nat)
    (questionType : QueryType) (responses : List (Option DnsPacket)) :
    Except ResolveError (DnsPacket × List (Option DnsPacket)) :=
  recursiveLookupFrom fuel questionName questionType rootServer responses

deriving instance DecidableEq for Except

/-- Big-endian byte pair of a 16-bit value, as laid down by write_u16. -/
def u16be (v : Nat) : List Nat := [(v >>> 8) % 256, v % 256]

/-- Big-endian byte quadruple of a 32-bit value, as laid down by write_u32. -/
def u32be (v : Nat) : List Nat :=
  [(v >>> 24) % 256, (v >>> 16) % 256, (v >>> 8) % 256, v % 256]

/-- Wire form of a label sequence: each label as (length, bytes), the whole
terminated by a zero octet. -/
def nameBytesL : List (List Nat) → List Nat
  | [] => [0]
  | l :: ls => (l.length % 256) :: (l ++ nameBytesL ls)

/-- Wire form of a label sequence without the terminating zero octet (what
the label loop of write_question_name emits). -/
def labelsBytes : List (List Nat) → List Nat
  | [] => []
  | l :: ls => (l.length % 256) :: (l ++ labelsBytes ls)

/-- Wire form of a domain name as write_question_name emits it. -/
def nameBytes (n : List Nat) : List Nat :=
  nameBytesL (BytePacketBuffer.splitOnDot n)

/-- The 12 header octets as DnsHeader::write emits them. -/
def headerBytes (h : DnsHeader) : List Nat :=
  u16be h.id ++ [h.flagsOctetA % 256, h.flagsOctetB % 256]
    ++ u16be h.questions ++ u16be h.answers
    ++ u16be h.authoritative_entries ++ u16be h.resource_entries

/-- The octets of one question as DnsQuestion::write emits them. -/
def questionBytes (q : DnsQuestion) : List Nat :=
  nameBytes q.q_name ++ u16be q.q_type.toNum ++ u16be q.q_class.toNum

/-- The octets of one record as DnsRecord::write emits them (UNHANDLED
records are skipped; the NS/CNAME/MX data length is the patched-in payload
size). -/
def recordBytes : DnsRecord → List Nat
  | .UNHANDLED _ _ _ _ => []
  | .A domain addr ttl =>
    nameBytes domain ++ u16be 1 ++ u16be 1 ++ u32be ttl ++ u16be 4
      ++ [addr.o1 % 256, addr.o2 % 256, addr.o3 % 256, addr.o4 % 256]
  | .NS domain host ttl =>
    nameBytes domain ++ u16be 2 ++ u16be 1 ++ u32be ttl
      ++ u16be (nameBytes host).length ++ nameBytes host
  | .CNAME domain host ttl =>
    nameBytes domain ++ u16be 5 ++ u16be 1 ++ u32be ttl
      ++ u16be (nameBytes host).length ++ nameBytes host
  | .MX domain preference host ttl =>
    nameBytes domain ++ u16be 15 ++ u16be 1 ++ u32be ttl
      ++ u16be (2 + (nameBytes host).length) ++ u16be preference
      ++ nameBytes host
  | .AAAA domain addr ttl =>
    nameBytes domain ++ u16be 28 ++ u16be 1 ++ u32be ttl ++ u16be 16
      ++ u16be addr.s1 ++ u16be addr.s2 ++ u16be addr.s3 ++ u16be addr.s4
      ++ u16be addr.s5 ++ u16be addr.s6 ++ u16be addr.s7 ++ u16be addr.s8

/-- The header a packet is actually written with: the caller's header with
all four counts overwritten by the section lengths as u16. -/
def packetCountsHeader (p : DnsPacket) : DnsHeader :=
  { p.header with
     questions := p.questions.length % 65536
     answers := p.answers.length % 65536
     authoritative_entries := p.authorities.length % 65536
     resource_entries := p.resources.length % 65536 }

/-- A packet with its header counts overwritten by the section lengths:
the normal form decode produces from an encoded packet. -/
def setCounts (p : DnsPacket) : DnsPacket :=
  { p with header := packetCountsHeader p }

/-- The full wire image of a packet as DnsPacket::write emits it. -/
def packetBytes (p : DnsPacket) : List Nat :=
  headerBytes (packetCountsHeader p)
    ++ p.questions.flatMap questionBytes
    ++ p.answers.flatMap recordBytes
    ++ p.authorities.flatMap recordBytes
    ++ p.resources.flatMap recordBytes

/-- A label that survives the decode/encode cycle byte-identically:
nonempty, at most 63 octets, ASCII and lowercase-stable.  (Labels never
contain octet 46: they come from splitting on it.) -/
abbrev wfLabel (l : List Nat) : Prop :=
  l ≠ [] ∧ l.length ≤ 63 ∧ ∀ ch ∈ l, ch < 128 ∧ BytePacketBuffer.lowerChar ch = ch

/-- A domain name that survives the decode/encode cycle byte-identically. -/
abbrev wfName (n : List Nat) : Prop :=
  n.length ≤ 255 ∧ ∀ l ∈ BytePacketBuffer.splitOnDot n, wfLabel l

/-- A question whose type and class survive the to_num/from_num cycle. -/
abbrev wfQuestion (q : DnsQuestion) : Prop :=
  wfName q.q_name
    ∧ QueryType.fromNum q.q_type.toNum = q.q_type ∧ q.q_type.toNum < 65536
    ∧ QueryClass.fromNum q.q_class.toNum = q.q_class ∧ q.q_class.toNum < 65536

/-- A record that round-trips: a handled type with in-range payload.
AAAA is excluded: QueryType::from_num has no arm for 28, so a wire AAAA
record parses as UNKNOWN(28) and would be write-skipped. -/
abbrev wfRecord : DnsRecord → Prop
  | .UNHANDLED _ _ _ _ => False
  | .A domain addr ttl =>
    wfName domain ∧ ttl < 4294967296
      ∧ addr.o1 < 256 ∧ addr.o2 < 256 ∧ addr.o3 < 256 ∧ addr.o4 < 256
  | .NS domain host ttl => wfName domain ∧ wfName host ∧ ttl < 4294967296
  | .CNAME domain host ttl => wfName domain ∧ wfName host ∧ ttl < 4294967296
  | .MX domain preference host ttl =>
    wfName domain ∧ wfName host ∧ preference < 65536 ∧ ttl < 4294967296
  | .AAAA _ _ _ => False

instance wfRecord_decidable (r : DnsRecord) : Decidable (wfRecord r) := by
  cases r <;> exact inferInstance

/-- Header fields within their Rust types' ranges (id u16, opcode 4 bits). -/
abbrev wfHeader (h : DnsHeader) : Prop := h.id < 65536 ∧ h.opcode < 16

/-- A packet whose wire image is a fixed point of decode-then-encode:
well-formed header fields, questions and records, section lengths within
u16, and a total wire image that fits the 512-octet buffer. -/
abbrev WFPacket (p : DnsPacket) : Prop :=
  wfHeader p.header
    ∧ (∀ q ∈ p.questions, wfQuestion q)
    ∧ (∀ r ∈ p.answers, wfRecord r)
    ∧ (∀ r ∈ p.authorities, wfRecord r)
    ∧ (∀ r ∈ p.resources, wfRecord r)
    ∧ p.questions.length < 65536 ∧ p.answers.length < 65536
    ∧ p.authorities.length < 65536 ∧ p.resources.length < 65536
    ∧ (packetBytes p).length ≤ 512

/-- Example packet for the round-trip witness: one question (name "ab.cd",
type A, class IN), an A answer, an NS authority and MX/CNAME additional
records, with stale caller-set header counts. -/
def c1ExamplePacket : DnsPacket where
  header := { DnsHeader.new with id := 513, recursion_desired := true, opcode := 3, rescode := .REFUSED, questions := 999 }
  questions := [⟨[97, 98, 46, 99, 100], .A, .IN⟩]
  answers := [.A [100, 101] ⟨1, 2, 3, 4⟩ 300]
  authorities := [.NS [99, 100] [110, 115, 46, 99, 100] 60]
  resources := [.MX [97] 10 [109, 120, 46, 97] 7,
                .CNAME [97, 97] [98, 98] 1]

/-- The name read_qname builds from a label sequence: labels lowercased
byte-wise and joined with dots (the pending delimiter starts empty and is a
dot from the second label on). -/
def joinLowerAux (delim : List Nat) : List (List Nat) → List Nat
  | [] => []
  | l :: ls => delim ++ l.map BytePacketBuffer.lowerChar ++ joinLowerAux [46] ls

theorem lor_shiftLeft_eq_add {A B n : Nat} (h : B < 2 ^ n) :
    (A <<< n) ||| B = 2 ^ n * A + B := by
  apply Nat.eq_of_testBit_eq
  intro i
  rw [Nat.testBit_lor, Nat.testBit_shiftLeft, Nat.testBit_mul_pow_two_add A h i]
  by_cases hin : i < n
  · have hd : ¬ (n ≤ i) := by omega
    simp [hin, hd]
  · have hni : n ≤ i := Nat.not_lt.mp hin
    have hb : B.testBit i = false :=
      Nat.testBit_lt_two_pow
        (lt_of_lt_of_le h (Nat.pow_le_pow_right (by norm_num) hni))
    simp [hin, hni, hb]

theorem lor_mul_add {A B n : Nat} (h : B < 2 ^ n) :
    A * 2 ^ n ||| B = A * 2 ^ n + B := by
  have h2 := lor_shiftLeft_eq_add (A := A) (B := B) (n := n) h
  rw [Nat.shiftLeft_eq] at h2
  rw [h2]
  ring

theorem lor_add_8 {A B : Nat} (h : B < 256) : A * 256 ||| B = A * 256 + B := by
  have := lor_mul_add (A := A) (B := B) (n := 8) (by norm_num; omega)
  norm_num at this
  exact this

theorem lor_add_16 {A B : Nat} (h : B < 65536) :
    A * 65536 ||| B = A * 65536 + B := by
  have := lor_mul_add (A := A) (B := B) (n := 16) (by norm_num; omega)
  norm_num at this
  exact this

theorem lor_add_24 {A B : Nat} (h : B < 16777216) :
    A * 16777216 ||| B = A * 16777216 + B := by
  have := lor_mul_add (A := A) (B := B) (n := 24) (by norm_num; omega)
  norm_num at this
  exact this

theorem and_255_eq_mod (x : Nat) : x &&& 255 = x % 256 := by
  have := Nat.and_pow_two_sub_one_eq_mod x 8
  norm_num at this
  exact this

theorem and_15_eq_mod (x : Nat) : x &&& 15 = x % 16 := by
  have := Nat.and_pow_two_sub_one_eq_mod x 4
  norm_num at this
  exact this

theorem and_65535_eq_mod (x : Nat) : x &&& 65535 = x % 65536 := by
  have := Nat.and_pow_two_sub_one_eq_mod x 16
  norm_num at this
  exact this

theorem shiftRight_8_eq (x : Nat) : x >>> 8 = x / 256 := by
  rw [Nat.shiftRight_eq_div_pow]

theorem shiftRight_16_eq (x : Nat) : x >>> 16 = x / 65536 := by
  rw [Nat.shiftRight_eq_div_pow]

theorem shiftRight_24_eq (x : Nat) : x >>> 24 = x / 16777216 := by
  rw [Nat.shiftRight_eq_div_pow]

theorem shiftRight_0_eq (x : Nat) : x >>> 0 = x := rfl

theorem two_bytes_value {hi lo : Nat} (h : lo < 256) :
    (hi <<< 8) ||| lo = hi * 256 + lo := by
  rw [Nat.shiftLeft_eq]
  norm_num
  exact lor_add_8 h

theorem four_bytes_value {a b c d : Nat} (hb : b < 256) (hc : c < 256)
    (hd : d < 256) :
    (((a <<< 24) ||| (b <<< 16)) ||| (c <<< 8)) ||| d
      = ((a * 256 + b) * 256 + c) * 256 + d := by
  have s1 : a <<< 24 = a * 16777216 := by rw [Nat.shiftLeft_eq]
  have s2 : b <<< 16 = b * 65536 := by rw [Nat.shiftLeft_eq]
  have s3 : c <<< 8 = c * 256 := by rw [Nat.shiftLeft_eq]
  rw [s1, s2, s3]
  rw [lor_add_24 (by omega)]
  have r2 : a * 16777216 + b * 65536 = (a * 256 + b) * 65536 := by ring
  rw [r2, lor_add_16 (by omega)]
  have r3 : (a * 256 + b) * 65536 + c * 256 = ((a * 256 + b) * 256 + c) * 256 := by
    ring
  rw [r3, lor_add_8 (by omega)]

theorem u16_recompose (v : Nat) :
    (((v >>> 8) % 256) <<< 8) ||| (v % 256) = v % 65536 := by
  rw [two_bytes_value (by omega)]
  rw [shiftRight_8_eq]
  omega

theorem u32_recompose (v : Nat) :
    (((((v >>> 24) % 256) <<< 24) ||| (((v >>> 16) % 256) <<< 16))
        ||| (((v >>> 8) % 256) <<< 8)) ||| (v % 256) = v % 4294967296 := by
  rw [four_bytes_value (by omega) (by omega) (by omega),
      shiftRight_24_eq, shiftRight_16_eq, shiftRight_8_eq]
  omega

/-- The buffer state reached by writing the byte sequence `bs` into a fresh
cursor: `bs` followed by the zeroed remainder, position just past `bs`. -/
def BufIs (b : BytePacketBuffer) (bs : List Nat) : Prop :=
  b.buffer = bs ++ List.replicate (512 - bs.length) 0
    ∧ b.position = bs.length ∧ bs.length ≤ 512

theorem bufIs_new : BufIs BytePacketBuffer.new [] :=
  ⟨rfl, rfl, Nat.zero_le 512⟩

theorem write_ok {b : BytePacketBuffer} {bs : List Nat} (hb : BufIs b bs)
    (hlen : bs.length < 512) (v : Nat) :
    ∃ b', BytePacketBuffer.write b v = .ok b'
      ∧ BufIs b' (bs ++ [v % 256]) := by
  obtain ⟨hbuf, hpos, hle⟩ := hb
  have hrep : (512 - bs.length) = (512 - (bs.length + 1)) + 1 := by omega
  have hset : b.buffer.set b.position (v % 256)
      = (bs ++ [v % 256]) ++ List.replicate (512 - (bs.length + 1)) 0 := by
    rw [hbuf, hpos, hrep, List.replicate_succ]
    rw [List.set_append_right _ _ (Nat.le_refl _)]
    simp
  refine ⟨{ buffer := b.buffer.set b.position (v % 256),
            position := b.position + 1 }, ?_, ?_, ?_, ?_⟩
  · unfold BytePacketBuffer.write
    rw [if_neg (by omega)]
  · show b.buffer.set b.position (v % 256) = _
    rw [hset]
    simp
  · simp [hpos]
  · simp
    omega

theorem writeU8_ok {b : BytePacketBuffer} {bs : List Nat} (hb : BufIs b bs)
    (hlen : bs.length < 512) (v : Nat) :
    ∃ b', BytePacketBuffer.writeU8 b v = .ok b'
      ∧ BufIs b' (bs ++ [v % 256]) :=
  write_ok hb hlen v

theorem writeU16_ok {b : BytePacketBuffer} {bs : List Nat} (hb : BufIs b bs)
    (hlen : bs.length + 2 ≤ 512) (v : Nat) :
    ∃ b', BytePacketBuffer.writeU16 b v = .ok b'
      ∧ BufIs b' (bs ++ u16be v) := by
  obtain ⟨b1, e1, h1⟩ := write_ok hb (by omega) (v >>> 8)
  obtain ⟨b2, e2, h2⟩ := write_ok h1 (by simp; omega) (v &&& 255)
  refine ⟨b2, ?_, ?_⟩
  · unfold BytePacketBuffer.writeU16
    rw [e1]
    exact e2
  · have hbytes : (bs ++ [(v >>> 8) % 256]) ++ [(v &&& 255) % 256]
        = bs ++ u16be v := by
      simp [u16be, and_255_eq_mod, Nat.mod_mod_of_dvd]
    rwa [hbytes] at h2

theorem writeU32_ok {b : BytePacketBuffer} {bs : List Nat} (hb : BufIs b bs)
    (hlen : bs.length + 4 ≤ 512) (v : Nat) :
    ∃ b', BytePacketBuffer.writeU32 b v = .ok b'
      ∧ BufIs b' (bs ++ u32be v) := by
  obtain ⟨b1, e1, h1⟩ := write_ok hb (by omega) ((v >>> 24) &&& 255)
  obtain ⟨b2, e2, h2⟩ := write_ok h1 (by simp; omega) ((v >>> 16) &&& 255)
  obtain ⟨b3, e3, h3⟩ := write_ok h2 (by simp; omega) ((v >>> 8) &&& 255)
  obtain ⟨b4, e4, h4⟩ := write_ok h3 (by simp; omega) (v &&& 255)
  refine ⟨b4, ?_, ?_⟩
  · simp only [BytePacketBuffer.writeU32, e1, e2, e3, e4]
  · have hbytes : (((bs ++ [((v >>> 24) &&& 255) % 256])
        ++ [((v >>> 16) &&& 255) % 256]) ++ [((v >>> 8) &&& 255) % 256])
        ++ [(v &&& 255) % 256] = bs ++ u32be v := by
      simp [u32be, and_255_eq_mod, Nat.mod_mod_of_dvd]
    rwa [hbytes] at h4

theorem setU16_patch {b : BytePacketBuffer} {xs ys : List Nat} {a0 a1 : Nat}
    (hb : BufIs b (xs ++ a0 :: a1 :: ys)) (v : Nat) :
    ∃ b', BytePacketBuffer.setU16 b xs.length v = .ok b'
      ∧ BufIs b' (xs ++ ((v >>> 8) % 256) :: (v % 256) :: ys)
      ∧ b'.position = b.position := by
  obtain ⟨hbuf, hpos, hle⟩ := hb
  have hxs : xs.length + 2 ≤ 512 := by
    simp at hle
    omega
  have hs1 : BytePacketBuffer.set b xs.length (v >>> 8)
      = .ok { b with buffer := b.buffer.set xs.length ((v >>> 8) % 256) } := by
    unfold BytePacketBuffer.set
    rw [if_neg (by omega)]
  have hs2 : BytePacketBuffer.set
        { b with buffer := b.buffer.set xs.length ((v >>> 8) % 256) }
        (xs.length + 1) (v &&& 255)
      = .ok { b with buffer := (b.buffer.set xs.length ((v >>> 8) % 256)).set (xs.length + 1) ((v &&& 255) % 256) } := by
    unfold BytePacketBuffer.set
    rw [if_neg (by omega)]
  have hset1 : b.buffer.set xs.length ((v >>> 8) % 256)
      = (xs ++ ((v >>> 8) % 256) :: a1 :: ys)
          ++ List.replicate (512 - (xs ++ a0 :: a1 :: ys).length) 0 := by
    rw [hbuf, List.append_assoc]
    rw [List.set_append_right _ _ (Nat.le_refl _)]
    simp
  have hset2 : ((xs ++ ((v >>> 8) % 256) :: a1 :: ys)
        ++ List.replicate (512 - (xs ++ a0 :: a1 :: ys).length) 0).set
        (xs.length + 1) ((v &&& 255) % 256)
      = (xs ++ ((v >>> 8) % 256) :: (v % 256) :: ys)
          ++ List.replicate (512 - (xs ++ a0 :: a1 :: ys).length) 0 := by
    have h1 : (xs ++ ((v >>> 8) % 256) :: a1 :: ys)
          ++ List.replicate (512 - (xs ++ a0 :: a1 :: ys).length) 0
        = (xs ++ [((v >>> 8) % 256)])
          ++ (a1 :: (ys ++ List.replicate (512 - (xs ++ a0 :: a1 :: ys).length) 0)) := by
      simp
    have h2 : (xs ++ [((v >>> 8) % 256)]).length = xs.length + 1 := by simp
    rw [h1, ← h2, List.set_append_right _ _ (Nat.le_refl _)]
    simp [and_255_eq_mod, Nat.mod_mod_of_dvd]
  refine ⟨{ b with buffer := (b.buffer.set xs.length ((v >>> 8) % 256)).set (xs.length + 1) ((v &&& 255) % 256) }, ?_, ⟨?_, ?_, ?_⟩, rfl⟩
  · simp only [BytePacketBuffer.setU16, hs1, hs2]
  · show (b.buffer.set xs.length ((v >>> 8) % 256)).set
        (xs.length + 1) ((v &&& 255) % 256) = _
    rw [hset1, hset2]
    have hlen2 : (xs ++ a0 :: a1 :: ys).length
        = (xs ++ ((v >>> 8) % 256) :: (v % 256) :: ys).length := by simp
    rw [hlen2]
  · show b.position = _
    rw [hpos]
    simp
  · simp at hle
    simp
    omega

theorem nameBytesL_eq_labelsBytes (ls : List (List Nat)) :
    nameBytesL ls = labelsBytes ls ++ [0] := by
  induction ls with
  | nil => rfl
  | cons l ls ih => simp [nameBytesL, labelsBytes, ih]

theorem writeLabelBytes_ok {b : BytePacketBuffer} {bs : List Nat}
    (hb : BufIs b bs) {l : List Nat}
    (hroom : bs.length + l.length ≤ 512) (hbytes : ∀ ch ∈ l, ch < 256) :
    ∃ b', BytePacketBuffer.writeLabelBytes b l = .ok b'
      ∧ BufIs b' (bs ++ l) := by
  induction l generalizing b bs with
  | nil => exact ⟨b, rfl, by simpa using hb⟩
  | cons x xs ih =>
    obtain ⟨b1, e1, h1⟩ := writeU8_ok hb (by simp at hroom; omega) x
    have hx : x % 256 = x := Nat.mod_eq_of_lt (hbytes x (by simp))
    rw [hx] at h1
    obtain ⟨b2, e2, h2⟩ := ih h1 (by simp; simp at hroom; omega)
      (fun ch hch => hbytes ch (by simp [hch]))
    refine ⟨b2, ?_, ?_⟩
    · simp only [BytePacketBuffer.writeLabelBytes, e1, e2]
    · simpa using h2

theorem writeLabels_ok {b : BytePacketBuffer} {bs : List Nat}
    (hb : BufIs b bs) {L : List (List Nat)} {i : Nat}
    (hroom : bs.length + (labelsBytes L).length ≤ 512)
    (hlab : ∀ l ∈ L, l.length ≤ 63 ∧ ∀ ch ∈ l, ch < 256) :
    ∃ b', BytePacketBuffer.writeLabels b L i = .ok b'
      ∧ BufIs b' (bs ++ labelsBytes L) := by
  induction L generalizing b bs i with
  | nil => exact ⟨b, rfl, by simpa [labelsBytes] using hb⟩
  | cons l L ih =>
    have hl := hlab l (by simp)
    have hroom2 : bs.length + (1 + (l.length + (labelsBytes L).length)) ≤ 512 := by
      simp [labelsBytes] at hroom
      omega
    obtain ⟨b1, e1, h1⟩ := writeU8_ok hb (by omega) l.length
    obtain ⟨b2, e2, h2⟩ := writeLabelBytes_ok h1 (by simp; omega) hl.2
    obtain ⟨b3, e3, h3⟩ := ih h2 (i := i + 1) (by simp; omega)
      (fun x hx => hlab x (by simp [hx]))
    refine ⟨b3, ?_, ?_⟩
    · simp only [BytePacketBuffer.writeLabels, e1, e2, e3,
        if_neg (by omega : ¬ 63 < l.length)]
    · have : ((bs ++ [l.length % 256]) ++ l) ++ labelsBytes L
          = bs ++ labelsBytes (l :: L) := by
        simp [labelsBytes]
      rwa [this] at h3

theorem writeQuestionName_ok {b : BytePacketBuffer} {bs : List Nat}
    (hb : BufIs b bs) {value : List Nat}
    (hroom : bs.length + (nameBytes value).length ≤ 512)
    (hname : value.length ≤ 255)
    (hlab : ∀ l ∈ BytePacketBuffer.splitOnDot value,
      l.length ≤ 63 ∧ ∀ ch ∈ l, ch < 256) :
    ∃ b', BytePacketBuffer.writeQuestionName b value = .ok b'
      ∧ BufIs b' (bs ++ nameBytes value) := by
  have hnb : nameBytes value
      = labelsBytes (BytePacketBuffer.splitOnDot value) ++ [0] := by
    rw [nameBytes, nameBytesL_eq_labelsBytes]
  have hroom2 : bs.length
      + ((labelsBytes (BytePacketBuffer.splitOnDot value)).length + 1) ≤ 512 := by
    rw [hnb] at hroom
    simp at hroom
    omega
  obtain ⟨b1, e1, h1⟩ := writeLabels_ok hb (L := BytePacketBuffer.splitOnDot value)
    (i := 0) (by omega) hlab
  obtain ⟨b2, e2, h2⟩ := writeU8_ok h1 (by simp; omega) 0
  refine ⟨b2, ?_, ?_⟩
  · simp only [BytePacketBuffer.writeQuestionName,
      if_neg (by omega : ¬ 255 < value.length), e1, e2]
  · rw [hnb]
    simpa using h2

theorem wfName_labels {n : List Nat} (h : wfName n) :
    ∀ l ∈ BytePacketBuffer.splitOnDot n,
      l.length ≤ 63 ∧ ∀ ch ∈ l, ch < 256 := by
  intro l hl
  obtain ⟨-, h2⟩ := h
  obtain ⟨-, hlen, hch⟩ := h2 l hl
  exact ⟨hlen, fun ch hc => lt_trans (hch ch hc).1 (by norm_num)⟩

theorem headerWrite_ok {b : BytePacketBuffer} {bs : List Nat}
    (hb : BufIs b bs) (h : DnsHeader) (hroom : bs.length + 12 ≤ 512) :
    ∃ b', DnsHeader.write h b = .ok b' ∧ BufIs b' (bs ++ headerBytes h) := by
  obtain ⟨b1, e1, h1⟩ := writeU16_ok hb (by omega) h.id
  obtain ⟨b2, e2, h2⟩ := writeU8_ok h1 (by simp [u16be]; omega) h.flagsOctetA
  obtain ⟨b3, e3, h3⟩ := writeU8_ok h2 (by simp [u16be]; omega) h.flagsOctetB
  obtain ⟨b4, e4, h4⟩ := writeU16_ok h3 (by simp [u16be]; omega) h.questions
  obtain ⟨b5, e5, h5⟩ := writeU16_ok h4 (by simp [u16be]; omega) h.answers
  obtain ⟨b6, e6, h6⟩ := writeU16_ok h5 (by simp [u16be]; omega)
    h.authoritative_entries
  obtain ⟨b7, e7, h7⟩ := writeU16_ok h6 (by simp [u16be]; omega)
    h.resource_entries
  refine ⟨b7, ?_, ?_⟩
  · simp only [DnsHeader.write, e1, e2, e3, e4, e5, e6, e7]
  · have hassoc : ((((((bs ++ u16be h.id) ++ [h.flagsOctetA % 256])
        ++ [h.flagsOctetB % 256]) ++ u16be h.questions) ++ u16be h.answers)
        ++ u16be h.authoritative_entries) ++ u16be h.resource_entries
        = bs ++ headerBytes h := by
      simp [headerBytes]
    rwa [hassoc] at h7

theorem mod65536_shift8 (x : Nat) : ((x % 65536) >>> 8) % 256 = (x >>> 8) % 256 := by
  rw [shiftRight_8_eq, shiftRight_8_eq]
  omega

theorem mod65536_mod256 (x : Nat) : (x % 65536) % 256 = x % 256 := by
  omega

theorem questionWrite_ok {b : BytePacketBuffer} {bs : List Nat}
    (hb : BufIs b bs) {q : DnsQuestion}
    (hroom : bs.length + (questionBytes q).length ≤ 512)
    (hname : q.q_name.length ≤ 255)
    (hlab : ∀ l ∈ BytePacketBuffer.splitOnDot q.q_name,
      l.length ≤ 63 ∧ ∀ ch ∈ l, ch < 256) :
    ∃ b', DnsQuestion.write q b = .ok b'
      ∧ BufIs b' (bs ++ questionBytes q) := by
  have hqb : (questionBytes q).length = (nameBytes q.q_name).length + 4 := by
    simp [questionBytes, u16be]
  obtain ⟨b1, e1, h1⟩ := writeQuestionName_ok hb (by omega) hname hlab
  obtain ⟨b2, e2, h2⟩ := writeU16_ok h1 (by simp; omega) q.q_type.toNum
  obtain ⟨b3, e3, h3⟩ := writeU16_ok h2 (by simp [u16be]; omega) q.q_class.toNum
  refine ⟨b3, by simp only [DnsQuestion.write, e1, e2, e3], ?_⟩
  have hassoc : ((bs ++ nameBytes q.q_name) ++ u16be q.q_type.toNum)
      ++ u16be q.q_class.toNum = bs ++ questionBytes q := by
    simp [questionBytes]
  rwa [hassoc] at h3

theorem recordWrite_A_ok {b : BytePacketBuffer} {bs : List Nat}
    (hb : BufIs b bs) {domain : List Nat} {addr : Ipv4Addr} {ttl : Nat}
    (hroom : bs.length + (recordBytes (.A domain addr ttl)).length ≤ 512)
    (hname : domain.length ≤ 255)
    (hlab : ∀ l ∈ BytePacketBuffer.splitOnDot domain,
      l.length ≤ 63 ∧ ∀ ch ∈ l, ch < 256) :
    ∃ n b', DnsRecord.write (.A domain addr ttl) b = .ok (n, b')
      ∧ BufIs b' (bs ++ recordBytes (.A domain addr ttl)) := by
  have hrb : (recordBytes (.A domain addr ttl)).length
      = (nameBytes domain).length + 14 := by
    simp [recordBytes, u16be, u32be]
  obtain ⟨b1, e1, h1⟩ := writeQuestionName_ok hb (by omega) hname hlab
  obtain ⟨b2, e2, h2⟩ := writeU16_ok h1 (by simp; omega) QueryType.A.toNum
  obtain ⟨b3, e3, h3⟩ := writeU16_ok h2 (by simp [u16be]; omega) 1
  obtain ⟨b4, e4, h4⟩ := writeU32_ok h3 (by simp [u16be]; omega) ttl
  obtain ⟨b5, e5, h5⟩ := writeU16_ok h4 (by simp [u16be, u32be]; omega) 4
  obtain ⟨b6, e6, h6⟩ := writeU8_ok h5 (by simp [u16be, u32be]; omega) addr.o1
  obtain ⟨b7, e7, h7⟩ := writeU8_ok h6 (by simp [u16be, u32be]; omega) addr.o2
  obtain ⟨b8, e8, h8⟩ := writeU8_ok h7 (by simp [u16be, u32be]; omega) addr.o3
  obtain ⟨b9, e9, h9⟩ := writeU8_ok h8 (by simp [u16be, u32be]; omega) addr.o4
  refine ⟨b9.position - b.position, b9, ?_, ?_⟩
  · simp only [DnsRecord.write, e1, e2, e3, e4, e5, e6, e7, e8, e9]
  · have hassoc : ((((((((bs ++ nameBytes domain) ++ u16be QueryType.A.toNum)
        ++ u16be 1) ++ u32be ttl) ++ u16be 4) ++ [addr.o1 % 256])
        ++ [addr.o2 % 256]) ++ [addr.o3 % 256]) ++ [addr.o4 % 256]
        = bs ++ recordBytes (.A domain addr ttl) := by
      simp [recordBytes, QueryType.toNum]
    rwa [hassoc] at h9

theorem recordWrite_NS_ok {b : BytePacketBuffer} {bs : List Nat}
    (hb : BufIs b bs) {domain host : List Nat} {ttl : Nat}
    (hroom : bs.length + (recordBytes (.NS domain host ttl)).length ≤ 512)
    (hnd : domain.length ≤ 255)
    (hld : ∀ l ∈ BytePacketBuffer.splitOnDot domain,
      l.length ≤ 63 ∧ ∀ ch ∈ l, ch < 256)
    (hnh : host.length ≤ 255)
    (hlh : ∀ l ∈ BytePacketBuffer.splitOnDot host,
      l.length ≤ 63 ∧ ∀ ch ∈ l, ch < 256) :
    ∃ n b', DnsRecord.write (.NS domain host ttl) b = .ok (n, b')
      ∧ BufIs b' (bs ++ recordBytes (.NS domain host ttl)) := by
  have hrb : (recordBytes (.NS domain host ttl)).length
      = (nameBytes domain).length + 10 + (nameBytes host).length := by
    simp [recordBytes, u16be, u32be]
    omega
  obtain ⟨b1, e1, h1⟩ := writeQuestionName_ok hb (by omega) hnd hld
  obtain ⟨b2, e2, h2⟩ := writeU16_ok h1 (by simp; omega) QueryType.NS.toNum
  obtain ⟨b3, e3, h3⟩ := writeU16_ok h2 (by simp [u16be]; omega)
    QueryClass.IN.toNum
  obtain ⟨b4, e4, h4⟩ := writeU32_ok h3 (by simp [u16be]; omega) ttl
  obtain ⟨b5, e5, h5⟩ := writeU16_ok h4 (by simp [u16be, u32be]; omega) 0
  have h5x : BufIs b5 ((((bs ++ nameBytes domain) ++ u16be QueryType.NS.toNum)
      ++ u16be QueryClass.IN.toNum ++ u32be ttl) ++ u16be 0) := by
    simpa using h5
  obtain ⟨b6, e6, h6⟩ := writeQuestionName_ok h5x (by simp [u16be, u32be]; omega)
    hnh hlh
  have h6x : BufIs b6 ((((bs ++ nameBytes domain) ++ u16be QueryType.NS.toNum)
      ++ u16be QueryClass.IN.toNum ++ u32be ttl)
      ++ 0 :: 0 :: nameBytes host) := by
    have : (u16be 0 : List Nat) = [0, 0] := by simp [u16be]
    rw [this] at h6
    simpa using h6
  obtain ⟨b7, epatch, h7, h7pos⟩ := setU16_patch h6x
    ((b6.position - (b4.position + 2)) % 65536)
  have hpos4 : b4.position = (((bs ++ nameBytes domain)
      ++ u16be QueryType.NS.toNum) ++ u16be QueryClass.IN.toNum
      ++ u32be ttl).length := by
    have := h4.2.1
    rw [this]
  rw [← hpos4] at epatch
  have hsize : (b6.position - (b4.position + 2)) % 65536
      = (nameBytes host).length % 65536 := by
    rw [h6.2.1, hpos4]
    simp [u16be]
    omega
  refine ⟨b7.position - b.position, b7, ?_, ?_⟩
  · simp only [DnsRecord.write, e1, e2, e3, e4, e5, e6, epatch]
  · rw [hsize] at h7
    have hassoc : (((bs ++ nameBytes domain) ++ u16be QueryType.NS.toNum)
        ++ u16be QueryClass.IN.toNum ++ u32be ttl)
        ++ (((nameBytes host).length % 65536) >>> 8) % 256
          :: ((nameBytes host).length % 65536) % 256 :: nameBytes host
        = bs ++ recordBytes (.NS domain host ttl) := by
      simp [recordBytes, u16be, QueryType.toNum, QueryClass.toNum,
        mod65536_shift8, mod65536_mod256]
    rwa [hassoc] at h7

theorem recordWrite_CNAME_ok {b : BytePacketBuffer} {bs : List Nat}
    (hb : BufIs b bs) {domain host : List Nat} {ttl : Nat}
    (hroom : bs.length + (recordBytes (.CNAME domain host ttl)).length ≤ 512)
    (hnd : domain.length ≤ 255)
    (hld : ∀ l ∈ BytePacketBuffer.splitOnDot domain,
      l.length ≤ 63 ∧ ∀ ch ∈ l, ch < 256)
    (hnh : host.length ≤ 255)
    (hlh : ∀ l ∈ BytePacketBuffer.splitOnDot host,
      l.length ≤ 63 ∧ ∀ ch ∈ l, ch < 256) :
    ∃ n b', DnsRecord.write (.CNAME domain host ttl) b = .ok (n, b')
      ∧ BufIs b' (bs ++ recordBytes (.CNAME domain host ttl)) := by
  have hrb : (recordBytes (.CNAME domain host ttl)).length
      = (nameBytes domain).length + 10 + (nameBytes host).length := by
    simp [recordBytes, u16be, u32be]
    omega
  obtain ⟨b1, e1, h1⟩ := writeQuestionName_ok hb (by omega) hnd hld
  obtain ⟨b2, e2, h2⟩ := writeU16_ok h1 (by simp; omega) QueryType.CNAME.toNum
  obtain ⟨b3, e3, h3⟩ := writeU16_ok h2 (by simp [u16be]; omega)
    QueryClass.IN.toNum
  obtain ⟨b4, e4, h4⟩ := writeU32_ok h3 (by simp [u16be]; omega) ttl
  obtain ⟨b5, e5, h5⟩ := writeU16_ok h4 (by simp [u16be, u32be]; omega) 0
  have h5x : BufIs b5 ((((bs ++ nameBytes domain)
      ++ u16be QueryType.CNAME.toNum)
      ++ u16be QueryClass.IN.toNum ++ u32be ttl) ++ u16be 0) := by
    simpa using h5
  obtain ⟨b6, e6, h6⟩ := writeQuestionName_ok h5x (by simp [u16be, u32be]; omega)
    hnh hlh
  have h6x : BufIs b6 ((((bs ++ nameBytes domain)
      ++ u16be QueryType.CNAME.toNum)
      ++ u16be QueryClass.IN.toNum ++ u32be ttl)
      ++ 0 :: 0 :: nameBytes host) := by
    have : (u16be 0 : List Nat) = [0, 0] := by simp [u16be]
    rw [this] at h6
    simpa using h6
  obtain ⟨b7, epatch, h7, h7pos⟩ := setU16_patch h6x
    ((b6.position - (b4.position + 2)) % 65536)
  have hpos4 : b4.position = (((bs ++ nameBytes domain)
      ++ u16be QueryType.CNAME.toNum) ++ u16be QueryClass.IN.toNum
      ++ u32be ttl).length := by
    have := h4.2.1
    rw [this]
  rw [← hpos4] at epatch
  have hsize : (b6.position - (b4.position + 2)) % 65536
      = (nameBytes host).length % 65536 := by
    rw [h6.2.1, hpos4]
    simp [u16be]
    omega
  refine ⟨b7.position - b.position, b7, ?_, ?_⟩
  · simp only [DnsRecord.write, e1, e2, e3, e4, e5, e6, epatch]
  · rw [hsize] at h7
    have hassoc : (((bs ++ nameBytes domain) ++ u16be QueryType.CNAME.toNum)
        ++ u16be QueryClass.IN.toNum ++ u32be ttl)
        ++ (((nameBytes host).length % 65536) >>> 8) % 256
          :: ((nameBytes host).length % 65536) % 256 :: nameBytes host
        = bs ++ recordBytes (.CNAME domain host ttl) := by
      simp [recordBytes, u16be, QueryType.toNum, QueryClass.toNum,
        mod65536_shift8, mod65536_mod256]
    rwa [hassoc] at h7

theorem recordWrite_MX_ok {b : BytePacketBuffer} {bs : List Nat}
    (hb : BufIs b bs) {domain host : List Nat} {priority ttl : Nat}
    (hroom : bs.length
      + (recordBytes (.MX domain priority host ttl)).length ≤ 512)
    (hnd : domain.length ≤ 255)
    (hld : ∀ l ∈ BytePacketBuffer.splitOnDot domain,
      l.length ≤ 63 ∧ ∀ ch ∈ l, ch < 256)
    (hnh : host.length ≤ 255)
    (hlh : ∀ l ∈ BytePacketBuffer.splitOnDot host,
      l.length ≤ 63 ∧ ∀ ch ∈ l, ch < 256) :
    ∃ n b', DnsRecord.write (.MX domain priority host ttl) b = .ok (n, b')
      ∧ BufIs b' (bs ++ recordBytes (.MX domain priority host ttl)) := by
  have hrb : (recordBytes (.MX domain priority host ttl)).length
      = (nameBytes domain).length + 12 + (nameBytes host).length := by
    simp [recordBytes, u16be, u32be]
    omega
  obtain ⟨b1, e1, h1⟩ := writeQuestionName_ok hb (by omega) hnd hld
  obtain ⟨b2, e2, h2⟩ := writeU16_ok h1 (by simp; omega) QueryType.MX.toNum
  obtain ⟨b3, e3, h3⟩ := writeU16_ok h2 (by simp [u16be]; omega)
    QueryClass.IN.toNum
  obtain ⟨b4, e4, h4⟩ := writeU32_ok h3 (by simp [u16be]; omega) ttl
  obtain ⟨b5, e5, h5⟩ := writeU16_ok h4 (by simp [u16be, u32be]; omega) 0
  have h5x : BufIs b5 ((((bs ++ nameBytes domain) ++ u16be QueryType.MX.toNum)
      ++ u16be QueryClass.IN.toNum ++ u32be ttl) ++ u16be 0) := by
    simpa using h5
  obtain ⟨b6, e6, h6⟩ := writeU16_ok h5x (by simp [u16be, u32be]; omega) priority
  obtain ⟨b7, e7, h7⟩ := writeQuestionName_ok h6
    (by simp [u16be, u32be]; omega) hnh hlh
  have h7x : BufIs b7 ((((bs ++ nameBytes domain) ++ u16be QueryType.MX.toNum)
      ++ u16be QueryClass.IN.toNum ++ u32be ttl)
      ++ 0 :: 0 :: (u16be priority ++ nameBytes host)) := by
    have : (u16be 0 : List Nat) = [0, 0] := by simp [u16be]
    rw [this] at h7
    simpa using h7
  obtain ⟨b8, epatch, h8, h8pos⟩ := setU16_patch h7x
    ((b7.position - (b4.position + 2)) % 65536)
  have hpos4 : b4.position = (((bs ++ nameBytes domain)
      ++ u16be QueryType.MX.toNum) ++ u16be QueryClass.IN.toNum
      ++ u32be ttl).length := by
    have := h4.2.1
    rw [this]
  rw [← hpos4] at epatch
  have hsize : (b7.position - (b4.position + 2)) % 65536
      = (2 + (nameBytes host).length) % 65536 := by
    rw [h7.2.1, hpos4]
    simp [u16be]
    omega
  refine ⟨b8.position - b.position, b8, ?_, ?_⟩
  · simp only [DnsRecord.write, e1, e2, e3, e4, e5, e6, e7, epatch]
  · rw [hsize] at h8
    have hassoc : (((bs ++ nameBytes domain) ++ u16be QueryType.MX.toNum)
        ++ u16be QueryClass.IN.toNum ++ u32be ttl)
        ++ (((2 + (nameBytes host).length) % 65536) >>> 8) % 256
          :: ((2 + (nameBytes host).length) % 65536) % 256
          :: (u16be priority ++ nameBytes host)
        = bs ++ recordBytes (.MX domain priority host ttl) := by
      simp [recordBytes, u16be, QueryType.toNum, QueryClass.toNum,
        mod65536_shift8, mod65536_mod256]
    rwa [hassoc] at h8

theorem recordWrite_AAAA_ok {b : BytePacketBuffer} {bs : List Nat}
    (hb : BufIs b bs) {domain : List Nat} {addr : Ipv6Addr} {ttl : Nat}
    (hroom : bs.length + (recordBytes (.AAAA domain addr ttl)).length ≤ 512)
    (hname : domain.length ≤ 255)
    (hlab : ∀ l ∈ BytePacketBuffer.splitOnDot domain,
      l.length ≤ 63 ∧ ∀ ch ∈ l, ch < 256) :
    ∃ n b', DnsRecord.write (.AAAA domain addr ttl) b = .ok (n, b')
      ∧ BufIs b' (bs ++ recordBytes (.AAAA domain addr ttl)) := by
  have hrb : (recordBytes (.AAAA domain addr ttl)).length
      = (nameBytes domain).length + 26 := by
    simp [recordBytes, u16be, u32be]
  obtain ⟨b1, e1, h1⟩ := writeQuestionName_ok hb (by omega) hname hlab
  obtain ⟨b2, e2, h2⟩ := writeU16_ok h1 (by simp; omega) QueryType.AAAA.toNum
  obtain ⟨b3, e3, h3⟩ := writeU16_ok h2 (by simp [u16be]; omega)
    QueryClass.IN.toNum
  obtain ⟨b4, e4, h4⟩ := writeU32_ok h3 (by simp [u16be]; omega) ttl
  obtain ⟨b5, e5, h5⟩ := writeU16_ok h4 (by simp [u16be, u32be]; omega) 16
  obtain ⟨b6, e6, h6⟩ := writeU16_ok h5 (by simp [u16be, u32be]; omega) addr.s1
  obtain ⟨b7, e7, h7⟩ := writeU16_ok h6 (by simp [u16be, u32be]; omega) addr.s2
  obtain ⟨b8, e8, h8⟩ := writeU16_ok h7 (by simp [u16be, u32be]; omega) addr.s3
  obtain ⟨b9, e9, h9⟩ := writeU16_ok h8 (by simp [u16be, u32be]; omega) addr.s4
  obtain ⟨b10, e10, h10⟩ := writeU16_ok h9 (by simp [u16be, u32be]; omega) addr.s5
  obtain ⟨b11, e11, h11⟩ := writeU16_ok h10 (by simp [u16be, u32be]; omega) addr.s6
  obtain ⟨b12, e12, h12⟩ := writeU16_ok h11 (by simp [u16be, u32be]; omega) addr.s7
  obtain ⟨b13, e13, h13⟩ := writeU16_ok h12 (by simp [u16be, u32be]; omega) addr.s8
  refine ⟨b13.position - b.position, b13, ?_, ?_⟩
  · simp only [DnsRecord.write, writeSegments, e1, e2, e3, e4, e5, e6, e7, e8,
      e9, e10, e11, e12, e13]
  · have hassoc : ((((((((((((bs ++ nameBytes domain)
        ++ u16be QueryType.AAAA.toNum) ++ u16be QueryClass.IN.toNum)
        ++ u32be ttl) ++ u16be 16) ++ u16be addr.s1) ++ u16be addr.s2)
        ++ u16be addr.s3) ++ u16be addr.s4) ++ u16be addr.s5)
        ++ u16be addr.s6) ++ u16be addr.s7) ++ u16be addr.s8
        = bs ++ recordBytes (.AAAA domain addr ttl) := by
      simp [recordBytes, QueryType.toNum, QueryClass.toNum]
    rwa [hassoc] at h13

theorem recordWrite_ok {b : BytePacketBuffer} {bs : List Nat}
    (hb : BufIs b bs) {r : DnsRecord} (hr : wfRecord r)
    (hroom : bs.length + (recordBytes r).length ≤ 512) :
    ∃ n b', DnsRecord.write r b = .ok (n, b')
      ∧ BufIs b' (bs ++ recordBytes r) := by
  cases r with
  | UNHANDLED d q dl t => exact hr.elim
  | A d a t =>
    obtain ⟨hn, -⟩ := hr
    exact recordWrite_A_ok hb hroom hn.1 (wfName_labels hn)
  | NS d h t =>
    obtain ⟨hnd, hnh, -⟩ := hr
    exact recordWrite_NS_ok hb hroom hnd.1 (wfName_labels hnd) hnh.1
      (wfName_labels hnh)
  | CNAME d h t =>
    obtain ⟨hnd, hnh, -⟩ := hr
    exact recordWrite_CNAME_ok hb hroom hnd.1 (wfName_labels hnd) hnh.1
      (wfName_labels hnh)
  | MX d pr h t =>
    obtain ⟨hnd, hnh, -⟩ := hr
    exact recordWrite_MX_ok hb hroom hnd.1 (wfName_labels hnd) hnh.1
      (wfName_labels hnh)
  | AAAA d a t => exact hr.elim

theorem writeQuestions_ok {b : BytePacketBuffer} {bs : List Nat}
    (hb : BufIs b bs) {qs : List DnsQuestion}
    (hwf : ∀ q ∈ qs, wfQuestion q)
    (hroom : bs.length + (qs.flatMap questionBytes).length ≤ 512) :
    ∃ b', writeQuestions qs b = .ok b'
      ∧ BufIs b' (bs ++ qs.flatMap questionBytes) := by
  induction qs generalizing b bs with
  | nil => exact ⟨b, rfl, by simpa using hb⟩
  | cons q qs ih =>
    have hq := hwf q (by simp)
    obtain ⟨b1, e1, h1⟩ := questionWrite_ok hb
      (by simp at hroom ⊢; omega) hq.1.1 (wfName_labels hq.1)
    obtain ⟨b2, e2, h2⟩ := ih h1 (fun x hx => hwf x (by simp [hx]))
      (by simp at hroom ⊢; omega)
    refine ⟨b2, ?_, ?_⟩
    · simp only [writeQuestions, e1, e2]
    · simpa using h2

theorem writeRecords_ok {b : BytePacketBuffer} {bs : List Nat}
    (hb : BufIs b bs) {rs : List DnsRecord}
    (hwf : ∀ r ∈ rs, wfRecord r)
    (hroom : bs.length + (rs.flatMap recordBytes).length ≤ 512) :
    ∃ b', writeRecords rs b = .ok b'
      ∧ BufIs b' (bs ++ rs.flatMap recordBytes) := by
  induction rs generalizing b bs with
  | nil => exact ⟨b, rfl, by simpa using hb⟩
  | cons r rs ih =>
    obtain ⟨n1, b1, e1, h1⟩ := recordWrite_ok hb (hwf r (by simp))
      (by simp at hroom ⊢; omega)
    obtain ⟨b2, e2, h2⟩ := ih h1 (fun x hx => hwf x (by simp [hx]))
      (by simp at hroom ⊢; omega)
    refine ⟨b2, ?_, ?_⟩
    · simp only [writeRecords, e1, e2]
    · simpa using h2

theorem packetWrite_ok {p : DnsPacket} (hwf : WFPacket p) :
    ∃ b', DnsPacket.write p BytePacketBuffer.new = .ok b'
      ∧ BufIs b' (packetBytes p) := by
  obtain ⟨hh, hq, ha, hau, hre, -, -, -, -, hlen⟩ := hwf
  have h12 : (headerBytes (packetCountsHeader p)).length = 12 := by
    simp [headerBytes, u16be]
  have hsplit : (packetBytes p).length
      = 12 + (p.questions.flatMap questionBytes).length
        + (p.answers.flatMap recordBytes).length
        + (p.authorities.flatMap recordBytes).length
        + (p.resources.flatMap recordBytes).length := by
    simp only [packetBytes, List.length_append, h12]
  rw [hsplit] at hlen
  obtain ⟨b1, e1, h1⟩ := headerWrite_ok bufIs_new (packetCountsHeader p)
    (by simp)
  rw [List.nil_append] at h1
  obtain ⟨b2, e2, h2⟩ := writeQuestions_ok h1 hq (by rw [h12]; omega)
  obtain ⟨b3, e3, h3⟩ := writeRecords_ok h2 ha
    (by simp only [List.length_append, h12]; omega)
  obtain ⟨b4, e4, h4⟩ := writeRecords_ok h3 hau
    (by simp only [List.length_append, h12]; omega)
  obtain ⟨b5, e5, h5⟩ := writeRecords_ok h4 hre
    (by simp only [List.length_append, h12]; omega)
  have e1x : DnsHeader.write
      { p.header with
         questions := p.questions.length % 65536
         answers := p.answers.length % 65536
         authoritative_entries := p.authorities.length % 65536
         resource_entries := p.resources.length % 65536 }
      BytePacketBuffer.new = .ok b1 := by
    rw [packetCountsHeader] at e1
    exact e1
  refine ⟨b5, ?_, ?_⟩
  · simp only [DnsPacket.write, e1x, e2, e3, e4, e5]
  · have hassoc : (((headerBytes (packetCountsHeader p)
        ++ p.questions.flatMap questionBytes)
        ++ p.answers.flatMap recordBytes)
        ++ p.authorities.flatMap recordBytes)
        ++ p.resources.flatMap recordBytes = packetBytes p := by
      simp [packetBytes]
    rwa [hassoc] at h5

theorem encodeToBytes_eq {p : DnsPacket} (hwf : WFPacket p) :
    encodeToBytes p = .ok (packetBytes p) := by
  obtain ⟨b', e, hbuf, hpos, hle⟩ := packetWrite_ok hwf
  simp only [encodeToBytes, e]
  rw [hbuf, hpos]
  rw [List.take_left]

theorem read_at {B : List Nat} {n : Nat} {p s : List Nat} {x : Nat}
    (hbuf : B = p ++ x :: s) (hpos : n = p.length) (hlt : n < 512) :
    BytePacketBuffer.read ⟨B, n⟩ = .ok (x, ⟨B, n + 1⟩) := by
  subst hbuf hpos
  simp only [BytePacketBuffer.read, BytePacketBuffer.step]
  rw [if_neg (by omega)]
  rw [List.getD_append_right _ _ _ _ (le_refl _)]
  simp

theorem readU16_at {B : List Nat} {n : Nat} {p s : List Nat} {a b : Nat}
    (hbuf : B = p ++ a :: b :: s) (hpos : n = p.length)
    (hlt : n + 2 ≤ 512) :
    BytePacketBuffer.readU16 ⟨B, n⟩
      = .ok ((a <<< 8) ||| b, ⟨B, n + 2⟩) := by
  have e1 := read_at (p := p) (s := b :: s) (x := a) hbuf hpos
    (by omega)
  have e2 := read_at (B := B) (n := n + 1) (p := p ++ [a]) (s := s)
    (x := b) (by simp [hbuf]) (by simp [hpos]) (by omega)
  simp only [BytePacketBuffer.readU16, e1, e2]

theorem readU32_at {B : List Nat} {n : Nat} {p s : List Nat}
    {a b c d : Nat}
    (hbuf : B = p ++ a :: b :: c :: d :: s) (hpos : n = p.length)
    (hlt : n + 4 ≤ 512) :
    BytePacketBuffer.readU32 ⟨B, n⟩
      = .ok ((((a <<< 24) ||| (b <<< 16)) ||| (c <<< 8)) ||| d,
          ⟨B, n + 4⟩) := by
  have e1 := read_at (p := p) (s := b :: c :: d :: s) (x := a)
    hbuf hpos (by omega)
  have e2 := read_at (B := B) (n := n + 1) (p := p ++ [a])
    (s := c :: d :: s) (x := b) (by simp [hbuf]) (by simp [hpos])
    (by omega)
  have e3 := read_at (B := B) (n := n + 2) (p := p ++ [a, b])
    (s := d :: s) (x := c) (by simp [hbuf]) (by simp [hpos]) (by omega)
  have e4 := read_at (B := B) (n := n + 3) (p := p ++ [a, b, c])
    (s := s) (x := d) (by simp [hbuf]) (by simp [hpos]) (by omega)
  simp only [BytePacketBuffer.readU32, e1, e2, e3, e4]

theorem small_and_192 {x : Nat} (h : x < 64) : x &&& 192 = 0 := by
  interval_cases x <;> rfl

theorem nameBytesL_length_pos (ls : List (List Nat)) :
    1 ≤ (nameBytesL ls).length := by
  cases ls <;> simp [nameBytesL]

theorem readQnameLoop_name {ls : List (List Nat)}
    (hls : ∀ l ∈ ls, l ≠ [] ∧ l.length ≤ 63) :
    ∀ (fuel : Nat) (pre suf delim acc : List Nat) (b : BytePacketBuffer),
      ls.length < fuel →
      b.buffer = pre ++ nameBytesL ls ++ suf →
      pre.length + (nameBytesL ls).length ≤ 512 →
      BytePacketBuffer.readQnameLoop b pre.length false 0 delim acc fuel
        = some (.ok (acc ++ joinLowerAux delim ls,
            BytePacketBuffer.seek b (pre.length + (nameBytesL ls).length))) := by
  induction ls with
  | nil =>
    intro fuel pre suf delim acc b hfuel hbuf hroom
    have hnb : nameBytesL [] = [0] := rfl
    rw [hnb] at hbuf hroom
    match fuel with
    | fuel + 1 =>
    have hget : BytePacketBuffer.get b pre.length = .ok 0 := by
      unfold BytePacketBuffer.get
      rw [if_neg (by simp at hroom; omega)]
      rw [hbuf, List.append_assoc]
      rw [List.getD_append_right _ _ _ _ (le_refl _)]
      simp
    simp [BytePacketBuffer.readQnameLoop, hget, joinLowerAux, nameBytesL]
  | cons l ls ih =>
    intro fuel pre suf delim acc b hfuel hbuf hroom
    have hl := hls l (by simp)
    have hlen0 : 0 < l.length := List.length_pos.mpr hl.1
    have hmod : l.length % 256 = l.length := Nat.mod_eq_of_lt (by omega)
    have hnb : nameBytesL (l :: ls) = l.length % 256 :: (l ++ nameBytesL ls) :=
      rfl
    rw [hnb, hmod] at hbuf hroom
    have hlenrest := nameBytesL_length_pos ls
    have hroom2 : pre.length + (1 + (l.length + (nameBytesL ls).length)) ≤ 512 := by
      simp at hroom
      omega
    match fuel with
    | fuel + 1 =>
    have hget : BytePacketBuffer.get b pre.length = .ok l.length := by
      unfold BytePacketBuffer.get
      rw [if_neg (by omega)]
      rw [hbuf, List.append_assoc]
      rw [List.getD_append_right _ _ _ _ (le_refl _)]
      simp
    have hrange : BytePacketBuffer.getRange b (pre.length + 1) l.length
        = .ok l := by
      unfold BytePacketBuffer.getRange
      rw [if_neg (by omega)]
      have hb2 : b.buffer = (pre ++ [l.length]) ++ (l ++ (nameBytesL ls ++ suf)) := by
        rw [hbuf]
        simp
      rw [hb2, List.drop_left' (by simp), List.take_left]
    have hbuf2 : b.buffer = (pre ++ l.length :: l) ++ nameBytesL ls ++ suf := by
      rw [hbuf]
      simp
    have ihx := ih (fun x hx => hls x (by simp [hx])) fuel
      (pre ++ l.length :: l) suf [46]
      (acc ++ delim ++ l.map BytePacketBuffer.lowerChar) b
      (by simp at hfuel; omega) (by rw [hbuf2]) (by simp; omega)
    have hcp : (pre ++ l.length :: l).length = pre.length + 1 + l.length := by
      simp
      omega
    rw [hcp] at ihx
    simp only [BytePacketBuffer.readQnameLoop, hget, hrange,
      if_neg (show ¬ 5 < 0 by norm_num),
      if_neg (show ¬ l.length &&& 192 = 192 by rw [small_and_192 (by omega)]; norm_num),
      if_neg (show ¬ l.length = 0 by omega)]
    rw [ihx]
    have hjoin : acc ++ delim ++ l.map BytePacketBuffer.lowerChar
        ++ joinLowerAux [46] ls = acc ++ joinLowerAux delim (l :: ls) := by
      simp [joinLowerAux]
    have hposx : pre.length + 1 + l.length + (nameBytesL ls).length
        = pre.length + (l.length :: (l ++ nameBytesL ls)).length := by
      simp
      omega
    rw [hjoin, hposx, hnb, hmod]

theorem nameBytesL_length_ge (ls : List (List Nat)) :
    ls.length + 1 ≤ (nameBytesL ls).length := by
  induction ls with
  | nil => simp [nameBytesL]
  | cons l ls ih =>
    simp [nameBytesL]
    simp at ih
    omega

theorem readQname_at {B : List Nat} {n : Nat} {p s : List Nat}
    {ls : List (List Nat)}
    (hls : ∀ l ∈ ls, l ≠ [] ∧ l.length ≤ 63)
    (hbuf : B = p ++ nameBytesL ls ++ s) (hpos : n = p.length)
    (hroom : p.length + (nameBytesL ls).length ≤ 512) :
    BytePacketBuffer.readQname ⟨B, n⟩
      = .ok (joinLowerAux [] ls, ⟨B, n + (nameBytesL ls).length⟩) := by
  have hfuel : ls.length < 4096 := by
    have h1 := nameBytesL_length_ge ls
    omega
  subst hpos hbuf
  have hx := readQnameLoop_name hls 4096 p s [] []
    ⟨p ++ nameBytesL ls ++ s, p.length⟩ hfuel rfl hroom
  simp only [BytePacketBuffer.readQname]
  rw [hx]
  simp [BytePacketBuffer.seek]

theorem splitOnDot_ne_nil (nm : List Nat) :
    BytePacketBuffer.splitOnDot nm ≠ [] := by
  cases nm with
  | nil => simp [BytePacketBuffer.splitOnDot]
  | cons ch rest =>
    unfold BytePacketBuffer.splitOnDot
    by_cases h : ch = 46
    · simp [h]
    · simp [h]
      cases hE : BytePacketBuffer.splitOnDot rest <;> simp

theorem joinLowerAux_dot {S : List (List Nat)} (h : S ≠ []) :
    joinLowerAux [46] S = 46 :: joinLowerAux [] S := by
  cases S with
  | nil => exact absurd rfl h
  | cons l ls => simp [joinLowerAux]

theorem joinLower_splitOnDot {nm : List Nat}
    (hlb : ∀ l ∈ BytePacketBuffer.splitOnDot nm,
      ∀ ch ∈ l, BytePacketBuffer.lowerChar ch = ch) :
    joinLowerAux [] (BytePacketBuffer.splitOnDot nm) = nm := by
  induction nm with
  | nil => simp [BytePacketBuffer.splitOnDot, joinLowerAux]
  | cons ch rest ih =>
    by_cases h : ch = 46
    · have hsp0 : BytePacketBuffer.splitOnDot (ch :: rest)
          = if ch = 46 then [] :: BytePacketBuffer.splitOnDot rest
            else match BytePacketBuffer.splitOnDot rest with
              | [] => [[ch]]
              | l :: ls => (ch :: l) :: ls := rfl
      have hsp : BytePacketBuffer.splitOnDot (ch :: rest)
          = [] :: BytePacketBuffer.splitOnDot rest := by
        rw [hsp0, if_pos h]
      rw [hsp] at hlb
      have ihx := ih (fun l hl chx hchx => hlb l (by simp [hl]) chx hchx)
      rw [hsp]
      simp only [joinLowerAux, List.map_nil, List.nil_append, List.append_nil]
      rw [joinLowerAux_dot (splitOnDot_ne_nil rest), ihx, h]
    · cases hE : BytePacketBuffer.splitOnDot rest with
      | nil => exact absurd hE (splitOnDot_ne_nil rest)
      | cons l ls =>
        have hsp0 : BytePacketBuffer.splitOnDot (ch :: rest)
            = if ch = 46 then [] :: BytePacketBuffer.splitOnDot rest
              else match BytePacketBuffer.splitOnDot rest with
                | [] => [[ch]]
                | l :: ls => (ch :: l) :: ls := rfl
        have hsp : BytePacketBuffer.splitOnDot (ch :: rest)
            = (ch :: l) :: ls := by
          rw [hsp0, if_neg h, hE]
        rw [hsp] at hlb
        have ihx := ih (by
          rw [hE]
          intro l2 hl2 chx hchx
          rcases List.mem_cons.mp hl2 with h1 | h2
          · exact hlb (ch :: l) (by simp) chx (by simp [h1] at hchx; simp [hchx])
          · exact hlb l2 (by simp [h2]) chx hchx)
        rw [hsp]
        simp only [joinLowerAux, List.map_cons, List.nil_append]
        rw [hE] at ihx
        simp only [joinLowerAux] at ihx
        have hch : BytePacketBuffer.lowerChar ch = ch :=
          hlb (ch :: l) (by simp) ch (by simp)
        simp [hch]
        rw [← ihx]
        simp

theorem wfLabel_shape {ls : List (List Nat)}
    (h : ∀ l ∈ ls, wfLabel l) : ∀ l ∈ ls, l ≠ [] ∧ l.length ≤ 63 :=
  fun l hl => ⟨(h l hl).1, (h l hl).2.1⟩

theorem wfName_read {nm : List Nat} (h : wfName nm) :
    joinLowerAux [] (BytePacketBuffer.splitOnDot nm) = nm :=
  joinLower_splitOnDot (fun l hl ch hch => ((h.2 l hl).2.2 ch hch).2)

theorem questionRead_at {B : List Nat} {n : Nat} {pre suf : List Nat}
    {q : DnsQuestion} (hq : wfQuestion q)
    (hbuf : B = pre ++ questionBytes q ++ suf) (hpos : n = pre.length)
    (hroom : pre.length + (questionBytes q).length ≤ 512) :
    DnsQuestion.read ⟨B, n⟩
      = .ok (q, ⟨B, n + (questionBytes q).length⟩) := by
  obtain ⟨hn, hty, htylt, hcl, hcllt⟩ := hq
  have hlsp := wfLabel_shape hn.2
  have hQlen : (questionBytes q).length
      = (nameBytesL (BytePacketBuffer.splitOnDot q.q_name)).length + 4 := by
    simp [questionBytes, nameBytes, u16be]
  have hbuf1 : B = pre ++ nameBytesL (BytePacketBuffer.splitOnDot q.q_name)
      ++ ((q.q_type.toNum >>> 8) % 256 :: q.q_type.toNum % 256
        :: (q.q_class.toNum >>> 8) % 256 :: q.q_class.toNum % 256 :: suf) := by
    rw [hbuf]
    simp [questionBytes, nameBytes, u16be]
  have e1 := readQname_at hlsp hbuf1 hpos (by omega)
  have e2 := readU16_at (B := B)
    (n := n + (nameBytesL (BytePacketBuffer.splitOnDot q.q_name)).length)
    (p := pre ++ nameBytesL (BytePacketBuffer.splitOnDot q.q_name))
    (s := (q.q_class.toNum >>> 8) % 256 :: q.q_class.toNum % 256 :: suf)
    (a := (q.q_type.toNum >>> 8) % 256) (b := q.q_type.toNum % 256)
    (by rw [hbuf1]) (by simp [hpos]) (by omega)
  have e3 := readU16_at (B := B)
    (n := n + (nameBytesL (BytePacketBuffer.splitOnDot q.q_name)).length + 2)
    (p := (pre ++ nameBytesL (BytePacketBuffer.splitOnDot q.q_name))
      ++ [(q.q_type.toNum >>> 8) % 256, q.q_type.toNum % 256])
    (s := suf)
    (a := (q.q_class.toNum >>> 8) % 256) (b := q.q_class.toNum % 256)
    (by rw [hbuf1]; simp) (by simp [hpos]; omega) (by omega)
  have hv1 : QueryType.fromNum ((((q.q_type.toNum >>> 8) % 256) <<< 8)
      ||| q.q_type.toNum % 256) = q.q_type := by
    rw [u16_recompose, Nat.mod_eq_of_lt htylt, hty]
  have hv2 : QueryClass.fromNum ((((q.q_class.toNum >>> 8) % 256) <<< 8)
      ||| q.q_class.toNum % 256) = q.q_class := by
    rw [u16_recompose, Nat.mod_eq_of_lt hcllt, hcl]
  simp only [DnsQuestion.read, e1, e2, e3, hv1, hv2, wfName_read hn]
  rw [hQlen]
  have : n + ((nameBytesL (BytePacketBuffer.splitOnDot q.q_name)).length + 4)
      = n + (nameBytesL (BytePacketBuffer.splitOnDot q.q_name)).length + 2 + 2 := by
    omega
  rw [this]

theorem flagsA_fields_raw (op : Nat) (hop : op < 16) (rd tc aa resp : Bool) :
    (decide (0 < (((rd.toNat ||| (tc.toNat <<< 1) ||| (aa.toNat <<< 2)
        ||| ((op <<< 3) % 256) ||| (resp.toNat <<< 7)) % 256)
        &&& (1 <<< 0))) = rd)
    ∧ (decide (0 < (((rd.toNat ||| (tc.toNat <<< 1) ||| (aa.toNat <<< 2)
        ||| ((op <<< 3) % 256) ||| (resp.toNat <<< 7)) % 256)
        &&& (1 <<< 1))) = tc)
    ∧ (decide (0 < (((rd.toNat ||| (tc.toNat <<< 1) ||| (aa.toNat <<< 2)
        ||| ((op <<< 3) % 256) ||| (resp.toNat <<< 7)) % 256)
        &&& (1 <<< 2))) = aa)
    ∧ ((((rd.toNat ||| (tc.toNat <<< 1) ||| (aa.toNat <<< 2)
        ||| ((op <<< 3) % 256) ||| (resp.toNat <<< 7)) % 256) >>> 3)
        &&& 15 = op)
    ∧ (decide (0 < (((rd.toNat ||| (tc.toNat <<< 1) ||| (aa.toNat <<< 2)
        ||| ((op <<< 3) % 256) ||| (resp.toNat <<< 7)) % 256)
        &&& (1 <<< 7))) = resp) := by
  interval_cases op <;> cases rd <;> cases tc <;> cases aa <;> cases resp <;>
    decide

theorem flagsA_fields (h : DnsHeader) (hop : h.opcode < 16) :
    (decide (0 < ((h.flagsOctetA % 256) &&& (1 <<< 0))) = h.recursion_desired)
    ∧ (decide (0 < ((h.flagsOctetA % 256) &&& (1 <<< 1))) = h.truncated_message)
    ∧ (decide (0 < ((h.flagsOctetA % 256) &&& (1 <<< 2)))
        = h.authoritative_answer)
    ∧ (((h.flagsOctetA % 256) >>> 3) &&& 15 = h.opcode)
    ∧ (decide (0 < ((h.flagsOctetA % 256) &&& (1 <<< 7))) = h.response) :=
  flagsA_fields_raw h.opcode hop h.recursion_desired h.truncated_message
    h.authoritative_answer h.response

theorem flagsB_fields_raw (rc : ResultCode) (cd ad z ra : Bool) :
    (ResultCode.fromNum (((rc.toNum ||| (cd.toNat <<< 4) ||| (ad.toNat <<< 5)
        ||| (z.toNat <<< 6) ||| (ra.toNat <<< 7)) % 256) &&& 15) = rc)
    ∧ (decide (0 < (((rc.toNum ||| (cd.toNat <<< 4) ||| (ad.toNat <<< 5)
        ||| (z.toNat <<< 6) ||| (ra.toNat <<< 7)) % 256)
        &&& (1 <<< 4))) = cd)
    ∧ (decide (0 < (((rc.toNum ||| (cd.toNat <<< 4) ||| (ad.toNat <<< 5)
        ||| (z.toNat <<< 6) ||| (ra.toNat <<< 7)) % 256)
        &&& (1 <<< 5))) = ad)
    ∧ (decide (0 < (((rc.toNum ||| (cd.toNat <<< 4) ||| (ad.toNat <<< 5)
        ||| (z.toNat <<< 6) ||| (ra.toNat <<< 7)) % 256)
        &&& (1 <<< 6))) = z)
    ∧ (decide (0 < (((rc.toNum ||| (cd.toNat <<< 4) ||| (ad.toNat <<< 5)
        ||| (z.toNat <<< 6) ||| (ra.toNat <<< 7)) % 256)
        &&& (1 <<< 7))) = ra) := by
  cases rc <;> cases cd <;> cases ad <;> cases z <;> cases ra <;> decide

theorem flagsB_fields (h : DnsHeader) :
    (ResultCode.fromNum ((h.flagsOctetB % 256) &&& 15) = h.rescode)
    ∧ (decide (0 < ((h.flagsOctetB % 256) &&& (1 <<< 4)))
        = h.checking_disabled)
    ∧ (decide (0 < ((h.flagsOctetB % 256) &&& (1 <<< 5))) = h.authed_data)
    ∧ (decide (0 < ((h.flagsOctetB % 256) &&& (1 <<< 6))) = h.z)
    ∧ (decide (0 < ((h.flagsOctetB % 256) &&& (1 <<< 7)))
        = h.recursion_available) :=
  flagsB_fields_raw h.rescode h.checking_disabled h.authed_data h.z
    h.recursion_available

theorem headerRead_at {B : List Nat} {n : Nat} {p s : List Nat}
    {h : DnsHeader} (hid : h.id < 65536) (hop : h.opcode < 16)
    (hqd : h.questions < 65536) (han : h.answers < 65536)
    (hns : h.authoritative_entries < 65536) (har : h.resource_entries < 65536)
    (hbuf : B = p ++ headerBytes h ++ s) (hpos : n = p.length)
    (hroom : p.length + 12 ≤ 512) :
    DnsHeader.read ⟨B, n⟩ = .ok (h, ⟨B, n + 12⟩) := by
  have hbuf1 : B = p ++ ((h.id >>> 8) % 256 :: h.id % 256
      :: h.flagsOctetA % 256 :: h.flagsOctetB % 256
      :: (h.questions >>> 8) % 256 :: h.questions % 256
      :: (h.answers >>> 8) % 256 :: h.answers % 256
      :: (h.authoritative_entries >>> 8) % 256 :: h.authoritative_entries % 256
      :: (h.resource_entries >>> 8) % 256 :: h.resource_entries % 256 :: s) := by
    rw [hbuf]
    simp [headerBytes, u16be]
  have e1 := readU16_at (B := B) (n := n) (p := p)
    (s := h.flagsOctetA % 256 :: h.flagsOctetB % 256
      :: (h.questions >>> 8) % 256 :: h.questions % 256
      :: (h.answers >>> 8) % 256 :: h.answers % 256
      :: (h.authoritative_entries >>> 8) % 256 :: h.authoritative_entries % 256
      :: (h.resource_entries >>> 8) % 256 :: h.resource_entries % 256 :: s)
    (a := (h.id >>> 8) % 256) (b := h.id % 256)
    (by rw [hbuf1]) hpos (by omega)
  have e2 := readU16_at (B := B) (n := n + 2)
    (p := p ++ [(h.id >>> 8) % 256, h.id % 256])
    (s := (h.questions >>> 8) % 256 :: h.questions % 256
      :: (h.answers >>> 8) % 256 :: h.answers % 256
      :: (h.authoritative_entries >>> 8) % 256 :: h.authoritative_entries % 256
      :: (h.resource_entries >>> 8) % 256 :: h.resource_entries % 256 :: s)
    (a := h.flagsOctetA % 256) (b := h.flagsOctetB % 256)
    (by rw [hbuf1]; simp) (by simp [hpos]) (by omega)
  have e3 := readU16_at (B := B) (n := n + 4)
    (p := p ++ [(h.id >>> 8) % 256, h.id % 256, h.flagsOctetA % 256,
      h.flagsOctetB % 256])
    (s := (h.answers >>> 8) % 256 :: h.answers % 256
      :: (h.authoritative_entries >>> 8) % 256 :: h.authoritative_entries % 256
      :: (h.resource_entries >>> 8) % 256 :: h.resource_entries % 256 :: s)
    (a := (h.questions >>> 8) % 256) (b := h.questions % 256)
    (by rw [hbuf1]; simp) (by simp [hpos]) (by omega)
  have e4 := readU16_at (B := B) (n := n + 6)
    (p := p ++ [(h.id >>> 8) % 256, h.id % 256, h.flagsOctetA % 256,
      h.flagsOctetB % 256, (h.questions >>> 8) % 256, h.questions % 256])
    (s := (h.authoritative_entries >>> 8) % 256
      :: h.authoritative_entries % 256
      :: (h.resource_entries >>> 8) % 256 :: h.resource_entries % 256 :: s)
    (a := (h.answers >>> 8) % 256) (b := h.answers % 256)
    (by rw [hbuf1]; simp) (by simp [hpos]) (by omega)
  have e5 := readU16_at (B := B) (n := n + 8)
    (p := p ++ [(h.id >>> 8) % 256, h.id % 256, h.flagsOctetA % 256,
      h.flagsOctetB % 256, (h.questions >>> 8) % 256, h.questions % 256,
      (h.answers >>> 8) % 256, h.answers % 256])
    (s := (h.resource_entries >>> 8) % 256 :: h.resource_entries % 256 :: s)
    (a := (h.authoritative_entries >>> 8) % 256)
    (b := h.authoritative_entries % 256)
    (by rw [hbuf1]; simp) (by simp [hpos]) (by omega)
  have e6 := readU16_at (B := B) (n := n + 10)
    (p := p ++ [(h.id >>> 8) % 256, h.id % 256, h.flagsOctetA % 256,
      h.flagsOctetB % 256, (h.questions >>> 8) % 256, h.questions % 256,
      (h.answers >>> 8) % 256, h.answers % 256,
      (h.authoritative_entries >>> 8) % 256, h.authoritative_entries % 256])
    (s := s)
    (a := (h.resource_entries >>> 8) % 256) (b := h.resource_entries % 256)
    (by rw [hbuf1]; simp) (by simp [hpos]) (by omega)
  have hAB : ∀ v : Nat, ((((v >>> 8) % 256) <<< 8) ||| (v % 256)) = v % 65536 :=
    u16_recompose
  have hid2 : (((h.id >>> 8) % 256) <<< 8) ||| (h.id % 256) = h.id := by
    rw [u16_recompose]
    omega
  have hflags : (((h.flagsOctetA % 256) <<< 8) ||| (h.flagsOctetB % 256))
      = h.flagsOctetA % 256 * 256 + h.flagsOctetB % 256 := by
    rw [two_bytes_value (by omega)]
  have ha : ((((h.flagsOctetA % 256) <<< 8) ||| (h.flagsOctetB % 256)) >>> 8)
      % 256 = h.flagsOctetA % 256 := by
    rw [hflags, shiftRight_8_eq]
    omega
  have hb2 : ((((h.flagsOctetA % 256) <<< 8) ||| (h.flagsOctetB % 256))
      &&& 255) = h.flagsOctetB % 256 := by
    rw [hflags, and_255_eq_mod]
    omega
  have hqd2 : (((h.questions >>> 8) % 256) <<< 8) ||| (h.questions % 256)
      = h.questions := by
    rw [u16_recompose]
    omega
  have han2 : (((h.answers >>> 8) % 256) <<< 8) ||| (h.answers % 256)
      = h.answers := by
    rw [u16_recompose]
    omega
  have hns2 : (((h.authoritative_entries >>> 8) % 256) <<< 8)
      ||| (h.authoritative_entries % 256) = h.authoritative_entries := by
    rw [u16_recompose]
    omega
  have har2 : (((h.resource_entries >>> 8) % 256) <<< 8)
      ||| (h.resource_entries % 256) = h.resource_entries := by
    rw [u16_recompose]
    omega
  obtain ⟨fA1, fA2, fA3, fA4, fA5⟩ := flagsA_fields h hop
  obtain ⟨fB1, fB2, fB3, fB4, fB5⟩ := flagsB_fields h
  simp only [DnsHeader.read, e1, e2, e3, e4, e5, e6, hid2, ha, hb2,
    hqd2, han2, hns2, har2, fA1, fA2, fA3, fA4, fA5, fB1, fB2, fB3, fB4, fB5]

theorem recordRead_A_at {B : List Nat} {n : Nat} {pre suf : List Nat}
    {domain : List Nat} {addr : Ipv4Addr} {ttl : Nat}
    (hr : wfRecord (.A domain addr ttl))
    (hbuf : B = pre ++ recordBytes (.A domain addr ttl) ++ suf)
    (hpos : n = pre.length)
    (hroom : pre.length + (recordBytes (.A domain addr ttl)).length ≤ 512) :
    DnsRecord.read ⟨B, n⟩ = .ok (.A domain addr ttl,
      ⟨B, n + (recordBytes (.A domain addr ttl)).length⟩) := by
  obtain ⟨hn, httl, ho1, ho2, ho3, ho4⟩ := hr
  have hlsp := wfLabel_shape hn.2
  have hRlen : (recordBytes (.A domain addr ttl)).length
      = (nameBytesL (BytePacketBuffer.splitOnDot domain)).length + 14 := by
    simp [recordBytes, nameBytes, u16be, u32be]
  have hbuf1 : B = pre ++ nameBytesL (BytePacketBuffer.splitOnDot domain)
      ++ (0 :: 1 :: 0 :: 1 :: (ttl >>> 24) % 256 :: (ttl >>> 16) % 256
        :: (ttl >>> 8) % 256 :: ttl % 256 :: 0 :: 4 :: addr.o1 % 256
        :: addr.o2 % 256 :: addr.o3 % 256 :: addr.o4 % 256 :: suf) := by
    rw [hbuf]
    simp [recordBytes, nameBytes, u16be, u32be]
  have e1 := readQname_at hlsp hbuf1 hpos (by omega)
  have e2 := readU16_at (B := B)
    (n := n + (nameBytesL (BytePacketBuffer.splitOnDot domain)).length)
    (p := pre ++ nameBytesL (BytePacketBuffer.splitOnDot domain))
    (s := 0 :: 1 :: (ttl >>> 24) % 256 :: (ttl >>> 16) % 256
      :: (ttl >>> 8) % 256 :: ttl % 256 :: 0 :: 4 :: addr.o1 % 256
      :: addr.o2 % 256 :: addr.o3 % 256 :: addr.o4 % 256 :: suf)
    (a := 0) (b := 1)
    (by rw [hbuf1]) (by simp [hpos]) (by omega)
  have e3 := readU16_at (B := B)
    (n := n + (nameBytesL (BytePacketBuffer.splitOnDot domain)).length + 2)
    (p := (pre ++ nameBytesL (BytePacketBuffer.splitOnDot domain))
      ++ [0, 1])
    (s := (ttl >>> 24) % 256 :: (ttl >>> 16) % 256
      :: (ttl >>> 8) % 256 :: ttl % 256 :: 0 :: 4 :: addr.o1 % 256
      :: addr.o2 % 256 :: addr.o3 % 256 :: addr.o4 % 256 :: suf)
    (a := 0) (b := 1)
    (by rw [hbuf1]; simp) (by simp [hpos] <;> omega) (by omega)
  have e4 := readU32_at (B := B)
    (n := n + (nameBytesL (BytePacketBuffer.splitOnDot domain)).length + 4)
    (p := (pre ++ nameBytesL (BytePacketBuffer.splitOnDot domain))
      ++ [0, 1, 0, 1])
    (s := 0 :: 4 :: addr.o1 % 256 :: addr.o2 % 256 :: addr.o3 % 256
      :: addr.o4 % 256 :: suf)
    (a := (ttl >>> 24) % 256) (b := (ttl >>> 16) % 256)
    (c := (ttl >>> 8) % 256) (d := ttl % 256)
    (by rw [hbuf1]; simp) (by simp [hpos] <;> omega) (by omega)
  have e5 := readU16_at (B := B)
    (n := n + (nameBytesL (BytePacketBuffer.splitOnDot domain)).length + 8)
    (p := (pre ++ nameBytesL (BytePacketBuffer.splitOnDot domain))
      ++ [0, 1, 0, 1, (ttl >>> 24) % 256, (ttl >>> 16) % 256,
        (ttl >>> 8) % 256, ttl % 256])
    (s := addr.o1 % 256 :: addr.o2 % 256 :: addr.o3 % 256
      :: addr.o4 % 256 :: suf)
    (a := 0) (b := 4)
    (by rw [hbuf1]; simp) (by simp [hpos] <;> omega) (by omega)
  have e6 := readU32_at (B := B)
    (n := n + (nameBytesL (BytePacketBuffer.splitOnDot domain)).length + 10)
    (p := (pre ++ nameBytesL (BytePacketBuffer.splitOnDot domain))
      ++ [0, 1, 0, 1, (ttl >>> 24) % 256, (ttl >>> 16) % 256,
        (ttl >>> 8) % 256, ttl % 256, 0, 4])
    (s := suf)
    (a := addr.o1 % 256) (b := addr.o2 % 256)
    (c := addr.o3 % 256) (d := addr.o4 % 256)
    (by rw [hbuf1]; simp) (by simp [hpos] <;> omega) (by omega)
  have httlv : (((((ttl >>> 24) % 256) <<< 24) ||| (((ttl >>> 16) % 256) <<< 16))
      ||| (((ttl >>> 8) % 256) <<< 8)) ||| ttl % 256 = ttl := by
    rw [u32_recompose]
    omega
  have htype : ((0:Nat) <<< 8) ||| 1 = 1 := by decide
  have hcls : ((0:Nat) <<< 8) ||| 4 = 4 := by decide
  have hVaddr : ((((addr.o1 % 256) <<< 24) ||| ((addr.o2 % 256) <<< 16))
      ||| ((addr.o3 % 256) <<< 8)) ||| addr.o4 % 256
      = ((addr.o1 * 256 + addr.o2) * 256 + addr.o3) * 256 + addr.o4 := by
    rw [four_bytes_value (by omega) (by omega) (by omega)]
    omega
  have hx1 : ((((addr.o1 * 256 + addr.o2) * 256 + addr.o3) * 256 + addr.o4)
      >>> 24) &&& 255 = addr.o1 := by
    rw [shiftRight_24_eq, and_255_eq_mod]
    omega
  have hx2 : ((((addr.o1 * 256 + addr.o2) * 256 + addr.o3) * 256 + addr.o4)
      >>> 16) &&& 255 = addr.o2 := by
    rw [shiftRight_16_eq, and_255_eq_mod]
    omega
  have hx3 : ((((addr.o1 * 256 + addr.o2) * 256 + addr.o3) * 256 + addr.o4)
      >>> 8) &&& 255 = addr.o3 := by
    rw [shiftRight_8_eq, and_255_eq_mod]
    omega
  have hx4 : ((((addr.o1 * 256 + addr.o2) * 256 + addr.o3) * 256 + addr.o4)
      >>> 0) &&& 255 = addr.o4 := by
    rw [shiftRight_0_eq, and_255_eq_mod]
    omega
  simp only [DnsRecord.read, e1, e2, e3, e4, e5, e6, htype, hcls, httlv,
    hVaddr, hx1, hx2, hx3, hx4, wfName_read hn, QueryType.fromNum]
  rw [hRlen]
  have hfin : n + ((nameBytesL (BytePacketBuffer.splitOnDot domain)).length
      + 14)
      = n + (nameBytesL (BytePacketBuffer.splitOnDot domain)).length
        + 10 + 4 := by
    omega
  rw [hfin]

theorem recordRead_NS_at {B : List Nat} {n : Nat} {pre suf : List Nat}
    {domain host : List Nat} {ttl : Nat}
    (hr : wfRecord (.NS domain host ttl))
    (hbuf : B = pre ++ recordBytes (.NS domain host ttl) ++ suf)
    (hpos : n = pre.length)
    (hroom : pre.length + (recordBytes (.NS domain host ttl)).length ≤ 512) :
    DnsRecord.read ⟨B, n⟩ = .ok (.NS domain host ttl,
      ⟨B, n + (recordBytes (.NS domain host ttl)).length⟩) := by
  obtain ⟨hn, hh, httl⟩ := hr
  have hlsp := wfLabel_shape hn.2
  have hlsph := wfLabel_shape hh.2
  have hRlen : (recordBytes (.NS domain host ttl)).length
      = (nameBytesL (BytePacketBuffer.splitOnDot domain)).length + 10
        + (nameBytesL (BytePacketBuffer.splitOnDot host)).length := by
    simp [recordBytes, nameBytes, u16be, u32be]
    omega
  have hbuf1 : B = pre ++ nameBytesL (BytePacketBuffer.splitOnDot domain)
      ++ (0 :: 2 :: 0 :: 1 :: (ttl >>> 24) % 256 :: (ttl >>> 16) % 256
        :: (ttl >>> 8) % 256 :: ttl % 256
        :: ((nameBytes host).length >>> 8) % 256
        :: (nameBytes host).length % 256
        :: (nameBytesL (BytePacketBuffer.splitOnDot host) ++ suf)) := by
    rw [hbuf]
    simp [recordBytes, nameBytes, u16be, u32be]
  have e1 := readQname_at hlsp hbuf1 hpos (by omega)
  have e2 := readU16_at (B := B)
    (n := n + (nameBytesL (BytePacketBuffer.splitOnDot domain)).length)
    (p := pre ++ nameBytesL (BytePacketBuffer.splitOnDot domain))
    (s := 0 :: 1 :: (ttl >>> 24) % 256 :: (ttl >>> 16) % 256
      :: (ttl >>> 8) % 256 :: ttl % 256
      :: ((nameBytes host).length >>> 8) % 256
      :: (nameBytes host).length % 256
      :: (nameBytesL (BytePacketBuffer.splitOnDot host) ++ suf))
    (a := 0) (b := 2)
    (by rw [hbuf1]) (by simp [hpos] <;> omega) (by omega)
  have e3 := readU16_at (B := B)
    (n := n + (nameBytesL (BytePacketBuffer.splitOnDot domain)).length + 2)
    (p := (pre ++ nameBytesL (BytePacketBuffer.splitOnDot domain)) ++ [0, 2])
    (s := (ttl >>> 24) % 256 :: (ttl >>> 16) % 256
      :: (ttl >>> 8) % 256 :: ttl % 256
      :: ((nameBytes host).length >>> 8) % 256
      :: (nameBytes host).length % 256
      :: (nameBytesL (BytePacketBuffer.splitOnDot host) ++ suf))
    (a := 0) (b := 1)
    (by rw [hbuf1]; simp) (by simp [hpos] <;> omega) (by omega)
  have e4 := readU32_at (B := B)
    (n := n + (nameBytesL (BytePacketBuffer.splitOnDot domain)).length + 4)
    (p := (pre ++ nameBytesL (BytePacketBuffer.splitOnDot domain))
      ++ [0, 2, 0, 1])
    (s := ((nameBytes host).length >>> 8) % 256
      :: (nameBytes host).length % 256
      :: (nameBytesL (BytePacketBuffer.splitOnDot host) ++ suf))
    (a := (ttl >>> 24) % 256) (b := (ttl >>> 16) % 256)
    (c := (ttl >>> 8) % 256) (d := ttl % 256)
    (by rw [hbuf1]; simp) (by simp [hpos] <;> omega) (by omega)
  have e5 := readU16_at (B := B)
    (n := n + (nameBytesL (BytePacketBuffer.splitOnDot domain)).length + 8)
    (p := (pre ++ nameBytesL (BytePacketBuffer.splitOnDot domain))
      ++ [0, 2, 0, 1, (ttl >>> 24) % 256, (ttl >>> 16) % 256,
        (ttl >>> 8) % 256, ttl % 256])
    (s := nameBytesL (BytePacketBuffer.splitOnDot host) ++ suf)
    (a := ((nameBytes host).length >>> 8) % 256)
    (b := (nameBytes host).length % 256)
    (by rw [hbuf1]; simp) (by simp [hpos] <;> omega) (by omega)
  have e6 := readQname_at (B := B)
    (n := n + (nameBytesL (BytePacketBuffer.splitOnDot domain)).length + 10)
    (p := (pre ++ nameBytesL (BytePacketBuffer.splitOnDot domain))
      ++ [0, 2, 0, 1, (ttl >>> 24) % 256, (ttl >>> 16) % 256,
        (ttl >>> 8) % 256, ttl % 256, ((nameBytes host).length >>> 8) % 256,
        (nameBytes host).length % 256])
    (s := suf) hlsph
    (by rw [hbuf1]; simp) (by simp [hpos] <;> omega) (by simp; omega)
  have httlv : (((((ttl >>> 24) % 256) <<< 24) ||| (((ttl >>> 16) % 256) <<< 16))
      ||| (((ttl >>> 8) % 256) <<< 8)) ||| ttl % 256 = ttl := by
    rw [u32_recompose]
    omega
  have htype : ((0:Nat) <<< 8) ||| 2 = 2 := by decide
  have hcls : ((0:Nat) <<< 8) ||| 1 = 1 := by decide
  simp only [DnsRecord.read, e1, e2, e3, e4, e5, e6, htype, hcls, httlv,
    wfName_read hn, wfName_read hh, QueryType.fromNum]
  rw [hRlen]
  have hfin : n + ((nameBytesL (BytePacketBuffer.splitOnDot domain)).length
      + 10 + (nameBytesL (BytePacketBuffer.splitOnDot host)).length)
      = n + (nameBytesL (BytePacketBuffer.splitOnDot domain)).length
        + 10 + (nameBytesL (BytePacketBuffer.splitOnDot host)).length := by
    omega
  rw [hfin]

theorem recordRead_CNAME_at {B : List Nat} {n : Nat} {pre suf : List Nat}
    {domain host : List Nat} {ttl : Nat}
    (hr : wfRecord (.CNAME domain host ttl))
    (hbuf : B = pre ++ recordBytes (.CNAME domain host ttl) ++ suf)
    (hpos : n = pre.length)
    (hroom : pre.length + (recordBytes (.CNAME domain host ttl)).length ≤ 512) :
    DnsRecord.read ⟨B, n⟩ = .ok (.CNAME domain host ttl,
      ⟨B, n + (recordBytes (.CNAME domain host ttl)).length⟩) := by
  obtain ⟨hn, hh, httl⟩ := hr
  have hlsp := wfLabel_shape hn.2
  have hlsph := wfLabel_shape hh.2
  have hRlen : (recordBytes (.CNAME domain host ttl)).length
      = (nameBytesL (BytePacketBuffer.splitOnDot domain)).length + 10
        + (nameBytesL (BytePacketBuffer.splitOnDot host)).length := by
    simp [recordBytes, nameBytes, u16be, u32be]
    omega
  have hbuf1 : B = pre ++ nameBytesL (BytePacketBuffer.splitOnDot domain)
      ++ (0 :: 5 :: 0 :: 1 :: (ttl >>> 24) % 256 :: (ttl >>> 16) % 256
        :: (ttl >>> 8) % 256 :: ttl % 256
        :: ((nameBytes host).length >>> 8) % 256
        :: (nameBytes host).length % 256
        :: (nameBytesL (BytePacketBuffer.splitOnDot host) ++ suf)) := by
    rw [hbuf]
    simp [recordBytes, nameBytes, u16be, u32be]
  have e1 := readQname_at hlsp hbuf1 hpos (by omega)
  have e2 := readU16_at (B := B)
    (n := n + (nameBytesL (BytePacketBuffer.splitOnDot domain)).length)
    (p := pre ++ nameBytesL (BytePacketBuffer.splitOnDot domain))
    (s := 0 :: 1 :: (ttl >>> 24) % 256 :: (ttl >>> 16) % 256
      :: (ttl >>> 8) % 256 :: ttl % 256
      :: ((nameBytes host).length >>> 8) % 256
      :: (nameBytes host).length % 256
      :: (nameBytesL (BytePacketBuffer.splitOnDot host) ++ suf))
    (a := 0) (b := 5)
    (by rw [hbuf1]) (by simp [hpos] <;> omega) (by omega)
  have e3 := readU16_at (B := B)
    (n := n + (nameBytesL (BytePacketBuffer.splitOnDot domain)).length + 2)
    (p := (pre ++ nameBytesL (BytePacketBuffer.splitOnDot domain)) ++ [0, 5])
    (s := (ttl >>> 24) % 256 :: (ttl >>> 16) % 256
      :: (ttl >>> 8) % 256 :: ttl % 256
      :: ((nameBytes host).length >>> 8) % 256
      :: (nameBytes host).length % 256
      :: (nameBytesL (BytePacketBuffer.splitOnDot host) ++ suf))
    (a := 0) (b := 1)
    (by rw [hbuf1]; simp) (by simp [hpos] <;> omega) (by omega)
  have e4 := readU32_at (B := B)
    (n := n + (nameBytesL (BytePacketBuffer.splitOnDot domain)).length + 4)
    (p := (pre ++ nameBytesL (BytePacketBuffer.splitOnDot domain))
      ++ [0, 5, 0, 1])
    (s := ((nameBytes host).length >>> 8) % 256
      :: (nameBytes host).length % 256
      :: (nameBytesL (BytePacketBuffer.splitOnDot host) ++ suf))
    (a := (ttl >>> 24) % 256) (b := (ttl >>> 16) % 256)
    (c := (ttl >>> 8) % 256) (d := ttl % 256)
    (by rw [hbuf1]; simp) (by simp [hpos] <;> omega) (by omega)
  have e5 := readU16_at (B := B)
    (n := n + (nameBytesL (BytePacketBuffer.splitOnDot domain)).length + 8)
    (p := (pre ++ nameBytesL (BytePacketBuffer.splitOnDot domain))
      ++ [0, 5, 0, 1, (ttl >>> 24) % 256, (ttl >>> 16) % 256,
        (ttl >>> 8) % 256, ttl % 256])
    (s := nameBytesL (BytePacketBuffer.splitOnDot host) ++ suf)
    (a := ((nameBytes host).length >>> 8) % 256)
    (b := (nameBytes host).length % 256)
    (by rw [hbuf1]; simp) (by simp [hpos] <;> omega) (by omega)
  have e6 := readQname_at (B := B)
    (n := n + (nameBytesL (BytePacketBuffer.splitOnDot domain)).length + 10)
    (p := (pre ++ nameBytesL (BytePacketBuffer.splitOnDot domain))
      ++ [0, 5, 0, 1, (ttl >>> 24) % 256, (ttl >>> 16) % 256,
        (ttl >>> 8) % 256, ttl % 256, ((nameBytes host).length >>> 8) % 256,
        (nameBytes host).length % 256])
    (s := suf) hlsph
    (by rw [hbuf1]; simp) (by simp [hpos] <;> omega) (by simp; omega)
  have httlv : (((((ttl >>> 24) % 256) <<< 24) ||| (((ttl >>> 16) % 256) <<< 16))
      ||| (((ttl >>> 8) % 256) <<< 8)) ||| ttl % 256 = ttl := by
    rw [u32_recompose]
    omega
  have htype : ((0:Nat) <<< 8) ||| 5 = 5 := by decide
  have hcls : ((0:Nat) <<< 8) ||| 1 = 1 := by decide
  simp only [DnsRecord.read, e1, e2, e3, e4, e5, e6, htype, hcls, httlv,
    wfName_read hn, wfName_read hh, QueryType.fromNum]
  rw [hRlen]
  have hfin : n + ((nameBytesL (BytePacketBuffer.splitOnDot domain)).length
      + 10 + (nameBytesL (BytePacketBuffer.splitOnDot host)).length)
      = n + (nameBytesL (BytePacketBuffer.splitOnDot domain)).length
        + 10 + (nameBytesL (BytePacketBuffer.splitOnDot host)).length := by
    omega
  rw [hfin]

theorem recordRead_MX_at {B : List Nat} {n : Nat} {pre suf : List Nat}
    {domain host : List Nat} {priority ttl : Nat}
    (hr : wfRecord (.MX domain priority host ttl))
    (hbuf : B = pre ++ recordBytes (.MX domain priority host ttl) ++ suf)
    (hpos : n = pre.length)
    (hroom : pre.length
      + (recordBytes (.MX domain priority host ttl)).length ≤ 512) :
    DnsRecord.read ⟨B, n⟩ = .ok (.MX domain priority host ttl,
      ⟨B, n + (recordBytes (.MX domain priority host ttl)).length⟩) := by
  obtain ⟨hn, hh, hpr, httl⟩ := hr
  have hlsp := wfLabel_shape hn.2
  have hlsph := wfLabel_shape hh.2
  have hRlen : (recordBytes (.MX domain priority host ttl)).length
      = (nameBytesL (BytePacketBuffer.splitOnDot domain)).length + 12
        + (nameBytesL (BytePacketBuffer.splitOnDot host)).length := by
    simp [recordBytes, nameBytes, u16be, u32be]
    omega
  have hbuf1 : B = pre ++ nameBytesL (BytePacketBuffer.splitOnDot domain)
      ++ (0 :: 15 :: 0 :: 1 :: (ttl >>> 24) % 256 :: (ttl >>> 16) % 256
        :: (ttl >>> 8) % 256 :: ttl % 256
        :: ((2 + (nameBytes host).length) >>> 8) % 256
        :: (2 + (nameBytes host).length) % 256
        :: (priority >>> 8) % 256 :: priority % 256
        :: (nameBytesL (BytePacketBuffer.splitOnDot host) ++ suf)) := by
    rw [hbuf]
    simp [recordBytes, nameBytes, u16be, u32be]
  have e1 := readQname_at hlsp hbuf1 hpos (by omega)
  have e2 := readU16_at (B := B)
    (n := n + (nameBytesL (BytePacketBuffer.splitOnDot domain)).length)
    (p := pre ++ nameBytesL (BytePacketBuffer.splitOnDot domain))
    (s := 0 :: 1 :: (ttl >>> 24) % 256 :: (ttl >>> 16) % 256
      :: (ttl >>> 8) % 256 :: ttl % 256
      :: ((2 + (nameBytes host).length) >>> 8) % 256
      :: (2 + (nameBytes host).length) % 256
      :: (priority >>> 8) % 256 :: priority % 256
      :: (nameBytesL (BytePacketBuffer.splitOnDot host) ++ suf))
    (a := 0) (b := 15)
    (by rw [hbuf1]) (by simp [hpos] <;> omega) (by omega)
  have e3 := readU16_at (B := B)
    (n := n + (nameBytesL (BytePacketBuffer.splitOnDot domain)).length + 2)
    (p := (pre ++ nameBytesL (BytePacketBuffer.splitOnDot domain)) ++ [0, 15])
    (s := (ttl >>> 24) % 256 :: (ttl >>> 16) % 256
      :: (ttl >>> 8) % 256 :: ttl % 256
      :: ((2 + (nameBytes host).length) >>> 8) % 256
      :: (2 + (nameBytes host).length) % 256
      :: (priority >>> 8) % 256 :: priority % 256
      :: (nameBytesL (BytePacketBuffer.splitOnDot host) ++ suf))
    (a := 0) (b := 1)
    (by rw [hbuf1]; simp) (by simp [hpos] <;> omega) (by omega)
  have e4 := readU32_at (B := B)
    (n := n + (nameBytesL (BytePacketBuffer.splitOnDot domain)).length + 4)
    (p := (pre ++ nameBytesL (BytePacketBuffer.splitOnDot domain))
      ++ [0, 15, 0, 1])
    (s := ((2 + (nameBytes host).length) >>> 8) % 256
      :: (2 + (nameBytes host).length) % 256
      :: (priority >>> 8) % 256 :: priority % 256
      :: (nameBytesL (BytePacketBuffer.splitOnDot host) ++ suf))
    (a := (ttl >>> 24) % 256) (b := (ttl >>> 16) % 256)
    (c := (ttl >>> 8) % 256) (d := ttl % 256)
    (by rw [hbuf1]; simp) (by simp [hpos] <;> omega) (by omega)
  have e5 := readU16_at (B := B)
    (n := n + (nameBytesL (BytePacketBuffer.splitOnDot domain)).length + 8)
    (p := (pre ++ nameBytesL (BytePacketBuffer.splitOnDot domain))
      ++ [0, 15, 0, 1, (ttl >>> 24) % 256, (ttl >>> 16) % 256,
        (ttl >>> 8) % 256, ttl % 256])
    (s := (priority >>> 8) % 256 :: priority % 256
      :: (nameBytesL (BytePacketBuffer.splitOnDot host) ++ suf))
    (a := ((2 + (nameBytes host).length) >>> 8) % 256)
    (b := (2 + (nameBytes host).length) % 256)
    (by rw [hbuf1]; simp) (by simp [hpos] <;> omega) (by omega)
  have e6 := readU16_at (B := B)
    (n := n + (nameBytesL (BytePacketBuffer.splitOnDot domain)).length + 10)
    (p := (pre ++ nameBytesL (BytePacketBuffer.splitOnDot domain))
      ++ [0, 15, 0, 1, (ttl >>> 24) % 256, (ttl >>> 16) % 256,
        (ttl >>> 8) % 256, ttl % 256, ((2 + (nameBytes host).length) >>> 8) % 256,
        (2 + (nameBytes host).length) % 256])
    (s := nameBytesL (BytePacketBuffer.splitOnDot host) ++ suf)
    (a := (priority >>> 8) % 256) (b := priority % 256)
    (by rw [hbuf1]; simp) (by simp [hpos] <;> omega) (by omega)
  have e7 := readQname_at (B := B)
    (n := n + (nameBytesL (BytePacketBuffer.splitOnDot domain)).length + 12)
    (p := (pre ++ nameBytesL (BytePacketBuffer.splitOnDot domain))
      ++ [0, 15, 0, 1, (ttl >>> 24) % 256, (ttl >>> 16) % 256,
        (ttl >>> 8) % 256, ttl % 256, ((2 + (nameBytes host).length) >>> 8) % 256,
        (2 + (nameBytes host).length) % 256, (priority >>> 8) % 256,
        priority % 256])
    (s := suf) hlsph
    (by rw [hbuf1]; simp) (by simp [hpos] <;> omega) (by simp; omega)
  have httlv : (((((ttl >>> 24) % 256) <<< 24) ||| (((ttl >>> 16) % 256) <<< 16))
      ||| (((ttl >>> 8) % 256) <<< 8)) ||| ttl % 256 = ttl := by
    rw [u32_recompose]
    omega
  have htype : ((0:Nat) <<< 8) ||| 15 = 15 := by decide
  have hcls : ((0:Nat) <<< 8) ||| 1 = 1 := by decide
  have hprv : (((priority >>> 8) % 256) <<< 8) ||| priority % 256
      = priority := by
    rw [u16_recompose]
    omega
  simp only [DnsRecord.read, e1, e2, e3, e4, e5, e6, e7, htype, hcls, httlv,
    hprv, wfName_read hn, wfName_read hh, QueryType.fromNum]
  rw [hRlen]
  have hfin : n + ((nameBytesL (BytePacketBuffer.splitOnDot domain)).length
      + 12 + (nameBytesL (BytePacketBuffer.splitOnDot host)).length)
      = n + (nameBytesL (BytePacketBuffer.splitOnDot domain)).length
        + 12 + (nameBytesL (BytePacketBuffer.splitOnDot host)).length := by
    omega
  rw [hfin]

theorem recordRead_at {B : List Nat} {n : Nat} {pre suf : List Nat}
    {r : DnsRecord} (hr : wfRecord r)
    (hbuf : B = pre ++ recordBytes r ++ suf) (hpos : n = pre.length)
    (hroom : pre.length + (recordBytes r).length ≤ 512) :
    DnsRecord.read ⟨B, n⟩ = .ok (r, ⟨B, n + (recordBytes r).length⟩) := by
  cases r with
  | UNHANDLED d q dl t => exact hr.elim
  | A d a t => exact recordRead_A_at hr hbuf hpos hroom
  | NS d h t => exact recordRead_NS_at hr hbuf hpos hroom
  | CNAME d h t => exact recordRead_CNAME_at hr hbuf hpos hroom
  | MX d pr h t => exact recordRead_MX_at hr hbuf hpos hroom
  | AAAA d a t => exact hr.elim

theorem readRecords_at {rs : List DnsRecord} (hwf : ∀ r ∈ rs, wfRecord r) :
    ∀ {B : List Nat} {n : Nat} {p s : List Nat},
      B = p ++ rs.flatMap recordBytes ++ s → n = p.length →
      p.length + (rs.flatMap recordBytes).length ≤ 512 →
      readRecords rs.length ⟨B, n⟩
        = .ok (rs, ⟨B, n + (rs.flatMap recordBytes).length⟩) := by
  induction rs with
  | nil =>
    intro B n pre suf hbuf hpos hroom
    simp [readRecords]
  | cons r rs ih =>
    intro B n pre suf hbuf hpos hroom
    have hbuf1 : B = pre ++ recordBytes r ++ (rs.flatMap recordBytes ++ suf) := by
      rw [hbuf]
      simp
    have e1 := recordRead_at (hwf r (by simp)) hbuf1 hpos
      (by simp at hroom; omega)
    have e2 := ih (fun x hx => hwf x (by simp [hx]))
      (B := B) (n := n + (recordBytes r).length)
      (p := pre ++ recordBytes r) (s := suf)
      (by rw [hbuf1]; simp) (by simp [hpos]) (by simp at hroom ⊢; omega)
    have hlen : (rs.flatMap recordBytes).length + (recordBytes r).length
        = ((r :: rs).flatMap recordBytes).length := by
      simp
      omega
    show readRecords (rs.length + 1) ⟨B, n⟩ = _
    simp only [readRecords, e1, e2]
    have : n + (recordBytes r).length + (rs.flatMap recordBytes).length
        = n + ((r :: rs).flatMap recordBytes).length := by
      simp
      omega
    rw [this]

theorem readQuestions_at {qs : List DnsQuestion} (hwf : ∀ q ∈ qs, wfQuestion q) :
    ∀ {B : List Nat} {n : Nat} {p s : List Nat},
      B = p ++ qs.flatMap questionBytes ++ s → n = p.length →
      p.length + (qs.flatMap questionBytes).length ≤ 512 →
      readQuestions qs.length ⟨B, n⟩
        = .ok (qs, ⟨B, n + (qs.flatMap questionBytes).length⟩) := by
  induction qs with
  | nil =>
    intro B n pre suf hbuf hpos hroom
    simp [readQuestions]
  | cons q qs ih =>
    intro B n pre suf hbuf hpos hroom
    have hbuf1 : B = pre ++ questionBytes q
        ++ (qs.flatMap questionBytes ++ suf) := by
      rw [hbuf]
      simp
    have e1 := questionRead_at (hwf q (by simp)) hbuf1 hpos
      (by simp at hroom; omega)
    have e2 := ih (fun x hx => hwf x (by simp [hx]))
      (B := B) (n := n + (questionBytes q).length)
      (p := pre ++ questionBytes q) (s := suf)
      (by rw [hbuf1]; simp) (by simp [hpos]) (by simp at hroom ⊢; omega)
    show readQuestions (qs.length + 1) ⟨B, n⟩ = _
    simp only [readQuestions, e1, e2]
    have : n + (questionBytes q).length + (qs.flatMap questionBytes).length
        = n + ((q :: qs).flatMap questionBytes).length := by
      simp
      omega
    rw [this]

theorem decodePacket_eq {p : DnsPacket} (hwf : WFPacket p) :
    decodePacket (packetBytes p) = .ok (setCounts p) := by
  obtain ⟨⟨hid, hop⟩, hq, ha, hau, hre, hql, hal, haul, hrel, hlen⟩ := hwf
  have h12 : (headerBytes (packetCountsHeader p)).length = 12 := by
    simp [headerBytes, u16be]
  have hsplit : packetBytes p = headerBytes (packetCountsHeader p)
      ++ p.questions.flatMap questionBytes
      ++ p.answers.flatMap recordBytes
      ++ p.authorities.flatMap recordBytes
      ++ p.resources.flatMap recordBytes := rfl
  have hlens : (packetBytes p).length
      = 12 + (p.questions.flatMap questionBytes).length
        + (p.answers.flatMap recordBytes).length
        + (p.authorities.flatMap recordBytes).length
        + (p.resources.flatMap recordBytes).length := by
    rw [hsplit]
    simp only [List.length_append, h12]
  have hbufH : ∀ (pad : List Nat), packetBytes p ++ pad
      = [] ++ headerBytes (packetCountsHeader p)
        ++ (p.questions.flatMap questionBytes
          ++ (p.answers.flatMap recordBytes
            ++ (p.authorities.flatMap recordBytes
              ++ (p.resources.flatMap recordBytes ++ pad)))) := by
    intro pad
    conv_lhs => rw [hsplit]
    simp
  have eH := headerRead_at (h := packetCountsHeader p)
    (B := packetBytes p ++ List.replicate (512 - (packetBytes p).length) 0)
    (n := 0) (p := [])
    (s := p.questions.flatMap questionBytes
      ++ (p.answers.flatMap recordBytes
        ++ (p.authorities.flatMap recordBytes
          ++ (p.resources.flatMap recordBytes
            ++ List.replicate (512 - (packetBytes p).length) 0))))
    (by simpa [packetCountsHeader] using hid)
    (by simpa [packetCountsHeader] using hop)
    (by simp [packetCountsHeader] <;> omega)
    (by simp [packetCountsHeader] <;> omega)
    (by simp [packetCountsHeader] <;> omega)
    (by simp [packetCountsHeader] <;> omega)
    (by rw [hbufH]) rfl (by simp)
  have eQ := readQuestions_at hq
    (B := packetBytes p ++ List.replicate (512 - (packetBytes p).length) 0)
    (n := 12) (p := headerBytes (packetCountsHeader p))
    (s := p.answers.flatMap recordBytes
      ++ (p.authorities.flatMap recordBytes
        ++ (p.resources.flatMap recordBytes
          ++ List.replicate (512 - (packetBytes p).length) 0)))
    (by rw [hbufH]; simp) (by rw [h12])
    (by simp only [List.length_append, h12]; omega)
  have eA := readRecords_at ha
    (B := packetBytes p ++ List.replicate (512 - (packetBytes p).length) 0)
    (n := 12 + (p.questions.flatMap questionBytes).length)
    (p := headerBytes (packetCountsHeader p)
      ++ p.questions.flatMap questionBytes)
    (s := p.authorities.flatMap recordBytes
      ++ (p.resources.flatMap recordBytes
        ++ List.replicate (512 - (packetBytes p).length) 0))
    (by rw [hbufH]; simp) (by simp only [List.length_append, h12])
    (by simp only [List.length_append, h12]; omega)
  have eAU := readRecords_at hau
    (B := packetBytes p ++ List.replicate (512 - (packetBytes p).length) 0)
    (n := 12 + (p.questions.flatMap questionBytes).length
      + (p.answers.flatMap recordBytes).length)
    (p := headerBytes (packetCountsHeader p)
      ++ p.questions.flatMap questionBytes
      ++ p.answers.flatMap recordBytes)
    (s := p.resources.flatMap recordBytes
      ++ List.replicate (512 - (packetBytes p).length) 0)
    (by rw [hbufH]; simp) (by simp only [List.length_append, h12])
    (by simp only [List.length_append, h12]; omega)
  have eRE := readRecords_at hre
    (B := packetBytes p ++ List.replicate (512 - (packetBytes p).length) 0)
    (n := 12 + (p.questions.flatMap questionBytes).length
      + (p.answers.flatMap recordBytes).length
      + (p.authorities.flatMap recordBytes).length)
    (p := headerBytes (packetCountsHeader p)
      ++ p.questions.flatMap questionBytes
      ++ p.answers.flatMap recordBytes
      ++ p.authorities.flatMap recordBytes)
    (s := List.replicate (512 - (packetBytes p).length) 0)
    (by rw [hbufH]; simp) (by simp only [List.length_append, h12])
    (by simp only [List.length_append, h12]; omega)
  have hqc : p.questions.length % 65536 = p.questions.length :=
    Nat.mod_eq_of_lt hql
  have hac : p.answers.length % 65536 = p.answers.length :=
    Nat.mod_eq_of_lt hal
  have hauc : p.authorities.length % 65536 = p.authorities.length :=
    Nat.mod_eq_of_lt haul
  have hrec : p.resources.length % 65536 = p.resources.length :=
    Nat.mod_eq_of_lt hrel
  simp only [decodePacket, bufferFromBytes, DnsPacket.fromBuffer, eH,
    packetCountsHeader, hqc, hac, hauc, hrec, eQ, eA, eAU, eRE]
  simp only [setCounts, packetCountsHeader, hqc, hac, hauc, hrec]

theorem packetBytes_setCounts (p : DnsPacket) :
    packetBytes (setCounts p) = packetBytes p := by
  simp [packetBytes, setCounts, packetCountsHeader]

theorem WFPacket_setCounts {p : DnsPacket} (h : WFPacket p) :
    WFPacket (setCounts p) := by
  obtain ⟨⟨hid, hop⟩, hq, ha, hau, hre, hql, hal, haul, hrel, hlen⟩ := h
  refine ⟨⟨hid, hop⟩, hq, ha, hau, hre, hql, hal, haul, hrel, ?_⟩
  rw [packetBytes_setCounts]
  exact hlen

/-- C1 (counterexample): the round-trip fails as stated.  The byte sequence
is a valid packet image (header with one question; question name "A", type
A, class IN) containing no Unknown-type records; decoding lowercases the
name, so re-encoding yields different bytes (0x61 in place of 0x41). -/
theorem c1_roundtrip_counterexample :
    decodeThenEncode
        [0, 0, 0, 0, 0, 1, 0, 0, 0, 0, 0, 0, 1, 65, 0, 0, 1, 0, 1]
      = .ok [0, 0, 0, 0, 0, 1, 0, 0, 0, 0, 0, 0, 1, 97, 0, 0, 1, 0, 1]
    ∧ ([0, 0, 0, 0, 0, 1, 0, 0, 0, 0, 0, 0, 1, 97, 0, 0, 1, 0, 1] :
        List Nat)
      ≠ [0, 0, 0, 0, 0, 1, 0, 0, 0, 0, 0, 0, 1, 65, 0, 0, 1, 0, 1] := by
  constructor
  · decide
  · decide

/-- C1 (amended): encode(decode(bytes)) = bytes holds for every buffer that
is the wire image of a well-formed packet: names already ASCII-lowercase
with nonempty labels within the wire limits, record types among
A/NS/CNAME/MX (wire AAAA parses as UNKNOWN because QueryType::from_num has
no arm for 28, and Unknown records are write-skipped; encode writes only
class IN and never emits compression pointers, so those do not arise in the
image), in-range header fields and payloads, and a total image of at most
512 octets.  For such p: encoding p yields packetBytes p, decoding those
bytes yields p with the counts overwritten by the section lengths, and
re-encoding reproduces the bytes exactly. -/
theorem c1_roundtrip_amended (p : DnsPacket) (h : WFPacket p) :
    encodeToBytes p = .ok (packetBytes p)
    ∧ decodePacket (packetBytes p) = .ok (setCounts p)
    ∧ decodeThenEncode (packetBytes p) = .ok (packetBytes p) := by
  refine ⟨encodeToBytes_eq h, decodePacket_eq h, ?_⟩
  simp only [decodeThenEncode, decodePacket_eq h]
  rw [encodeToBytes_eq (WFPacket_setCounts h), packetBytes_setCounts]

/-- C1 (witness): the amended round-trip at a concrete packet with one
question and A/NS/MX/CNAME records. -/
theorem c1_roundtrip_amended_witness :
    WFPacket c1ExamplePacket
    ∧ (encodeToBytes c1ExamplePacket = .ok (packetBytes c1ExamplePacket)
      ∧ decodePacket (packetBytes c1ExamplePacket)
          = .ok (setCounts c1ExamplePacket)
      ∧ decodeThenEncode (packetBytes c1ExamplePacket)
          = .ok (packetBytes c1ExamplePacket)) :=
  ⟨by decide, c1_roundtrip_amended c1ExamplePacket (by decide)⟩

/-- C3: every cursor access at an offset at or beyond 512 — a positional
read, an absolute-offset peek (get), or a positional write — returns
EndOfBuffer; the bound is checked before the buffer is touched, so no
operation accesses memory outside the 512-octet buffer. -/
theorem c3_access_bounds (b : BytePacketBuffer) (pos v : Nat)
    (h : 512 ≤ pos) :
    BytePacketBuffer.read ⟨b.buffer, pos⟩ = .error .EndOfBuffer
    ∧ b.get pos = .error .EndOfBuffer
    ∧ BytePacketBuffer.write ⟨b.buffer, pos⟩ v = .error .EndOfBuffer := by
  refine ⟨?_, ?_, ?_⟩ <;>
    simp [BytePacketBuffer.read, BytePacketBuffer.get,
      BytePacketBuffer.write, h]

/-- C3 (witness): the bound theorem at offset 512 on a fresh buffer. -/
theorem c3_access_bounds_witness :
    (512 : Nat) ≤ 512
    ∧ (BytePacketBuffer.read ⟨BytePacketBuffer.new.buffer, 512⟩
          = .error .EndOfBuffer
      ∧ BytePacketBuffer.new.get 512 = .error .EndOfBuffer
      ∧ BytePacketBuffer.write ⟨BytePacketBuffer.new.buffer, 512⟩ 7
          = .error .EndOfBuffer) :=
  ⟨by decide, c3_access_bounds BytePacketBuffer.new 512 7 (by decide)⟩

/-- C6: whenever the response at the head of the upstream-response sequence
carries result code NameError (NXDOMAIN), recursive_lookup returns exactly
that response with the rest of the sequence unconsumed — no further
queries are made and any NS records in its authority section are
ignored. -/
theorem c6_nameerror_early_return (fuel : Nat) (questionName : List Nat)
    (questionType : QueryType) (ns : Ipv4Addr) (response : DnsPacket)
    (rest : List (Option DnsPacket))
    (h : response.header.rescode = ResultCode.NameError) :
    recursiveLookupFrom (fuel + 1) questionName questionType ns
        (some response :: rest) = .ok (response, rest) := by
  simp [recursiveLookupFrom, h]

/-- C6 (witness): a NameError response whose authority section holds an NS
record is returned unchanged, the remaining oracle untouched. -/
theorem c6_nameerror_early_return_witness :
    ({ DnsPacket.new with
        header := { DnsHeader.new with rescode := ResultCode.NameError }
        authorities := [DnsRecord.NS [97] [110, 115] 60] } :
          DnsPacket).header.rescode = ResultCode.NameError
    ∧ recursiveLookupFrom 1 [97] .A rootServer
        (some { DnsPacket.new with
            header := { DnsHeader.new with rescode := ResultCode.NameError }
            authorities := [DnsRecord.NS [97] [110, 115] 60] } :: [none])
      = .ok ({ DnsPacket.new with
            header := { DnsHeader.new with rescode := ResultCode.NameError }
            authorities := [DnsRecord.NS [97] [110, 115] 60] }, [none]) :=
  ⟨rfl, c6_nameerror_early_return 0 [97] .A rootServer _ [none] rfl⟩

/-- C7 (counterexample): the position does not stay within [0,512].
Reading a record of unknown type 99 whose declared rdata length is 600
from a fresh buffer leaves the cursor at position 611 > 512, because the
unknown-type branch skips the declared length with the unchecked step. -/
theorem c7_position_counterexample :
    (match DnsRecord.read
        (bufferFromBytes [0, 0, 99, 0, 1, 0, 0, 1, 44, 2, 88]) with
     | .ok (_, b) => b.position
     | .error _ => 0) = 611 := by
  decide

/-- C7 (amended): step is unchecked, so the position can leave [0,512]
(it becomes exactly the old position plus the skip amount, with no error);
but every subsequent positional read or write at a position at or beyond
512 fails with EndOfBuffer before touching the buffer, so no out-of-bounds
access results. -/
theorem c7_position_amended (b : BytePacketBuffer) (n v : Nat)
    (h : 512 ≤ b.position + n) :
    (b.step n).position = b.position + n
    ∧ (b.step n).read = .error .EndOfBuffer
    ∧ (b.step n).write v = .error .EndOfBuffer := by
  refine ⟨rfl, ?_, ?_⟩ <;>
    simp [BytePacketBuffer.step, BytePacketBuffer.read,
      BytePacketBuffer.write, h]

/-- C7 (witness): the amended theorem after the 611-octet skip of the
counterexample's unknown record. -/
theorem c7_position_amended_witness :
    512 ≤ BytePacketBuffer.new.position + 611
    ∧ ((BytePacketBuffer.new.step 611).position
          = BytePacketBuffer.new.position + 611
      ∧ (BytePacketBuffer.new.step 611).read = .error .EndOfBuffer
      ∧ (BytePacketBuffer.new.step 611).write 0 = .error .EndOfBuffer) :=
  ⟨by decide, c7_position_amended BytePacketBuffer.new 611 0 (by decide)⟩

/-- C10: get_range fails with EndOfBuffer for every range with
start + len = 512, although such a range lies entirely within the buffer
and ends exactly at its last octet (the source compares with >= instead
of >); consequently a label whose bytes extend to the final octet cannot
be read: a 2-octet label placed at offsets 509-511 makes read_qname fail
with EndOfBuffer. -/
theorem c10_getRange_last_octet (b : BytePacketBuffer) (start len : Nat)
    (h : start + len = 512) :
    b.getRange start len = .error .EndOfBuffer
    ∧ BytePacketBuffer.readQname ⟨List.replicate 509 0 ++ [2, 97, 98], 509⟩
        = .error .EndOfBuffer := by
  constructor
  · simp [BytePacketBuffer.getRange, h]
  · decide

/-- C10 (witness): the boundary failure at start 509, length 3 on a fresh
buffer. -/
theorem c10_getRange_last_octet_witness :
    (509 : Nat) + 3 = 512
    ∧ (BytePacketBuffer.new.getRange 509 3 = .error .EndOfBuffer
      ∧ BytePacketBuffer.readQname
            ⟨List.replicate 509 0 ++ [2, 97, 98], 509⟩
          = .error .EndOfBuffer) :=
  ⟨by decide, c10_getRange_last_octet BytePacketBuffer.new 509 3 (by decide)⟩

/-- Fuel sufficiency for read_qname's loop: the measure
`(6 - jumps) * 260 + (512 - cp) / 2` strictly decreases on every iteration
(labels advance the local position by at least 2 within the 512 bound;
jumps are capped at 6 by the jump check), so any fuel above it rules out
exhaustion. -/
theorem readQnameLoop_total :
    ∀ (fuel : Nat) (b : BytePacketBuffer) (cp : Nat) (jumped : Bool)
      (jumps : Nat) (delim acc : List Nat),
      (6 - jumps) * 260 + (512 - cp) / 2 < fuel →
      (BytePacketBuffer.readQnameLoop b cp jumped jumps delim acc
        fuel).isSome := by
  intro fuel
  induction fuel with
  | zero => intro b cp jumped jumps delim acc h; omega
  | succ n ih =>
    intro b cp jumped jumps delim acc h
    by_cases hj : 5 < jumps
    · simp [BytePacketBuffer.readQnameLoop, hj]
    by_cases hcp : 512 ≤ cp
    · simp [BytePacketBuffer.readQnameLoop, hj, BytePacketBuffer.get, hcp]
    have hg : BytePacketBuffer.get b cp = .ok (b.buffer.getD cp 0) := by
      simp [BytePacketBuffer.get, hcp]
    by_cases hptr : b.buffer.getD cp 0 &&& 192 = 192
    · by_cases hcp1 : 512 ≤ cp + 1
      · have hg2e : ∀ b2 : BytePacketBuffer,
            BytePacketBuffer.get b2 (cp + 1) = .error .EndOfBuffer := by
          intro b2
          simp [BytePacketBuffer.get, hcp1]
        simp only [BytePacketBuffer.readQnameLoop, if_neg hj, hg]
        rw [if_pos hptr, hg2e]
        rfl
      · have hg2 : ∀ b2 : BytePacketBuffer,
            BytePacketBuffer.get b2 (cp + 1)
              = .ok (b2.buffer.getD (cp + 1) 0) := by
          intro b2
          simp [BytePacketBuffer.get, hcp1]
        simp only [BytePacketBuffer.readQnameLoop, if_neg hj, hg, hptr,
          if_true, hg2, eq_self_iff_true]
        apply ih
        have h256 : ∀ X : Nat, (512 - X) / 2 ≤ 256 := by intro X; omega
        have := h256 ((((if !jumped then BytePacketBuffer.seek b (cp + 2)
            else b).buffer.getD cp 0 ^^^ 192) <<< 8)
          ||| (if !jumped then BytePacketBuffer.seek b (cp + 2)
            else b).buffer.getD (cp + 1) 0)
        omega
    · by_cases hzero : b.buffer.getD cp 0 = 0
      · simp only [BytePacketBuffer.readQnameLoop, if_neg hj, hg]
        rw [if_neg hptr, if_pos hzero]
        rfl
      · by_cases hrange : 512 ≤ cp + 1 + b.buffer.getD cp 0
        · have hgre : BytePacketBuffer.getRange b (cp + 1)
              (b.buffer.getD cp 0) = .error .EndOfBuffer := by
            simp only [BytePacketBuffer.getRange, if_pos hrange]
          simp only [BytePacketBuffer.readQnameLoop, if_neg hj, hg]
          rw [if_neg hptr, if_neg hzero, hgre]
          rfl
        · have hgr : BytePacketBuffer.getRange b (cp + 1)
              (b.buffer.getD cp 0)
              = .ok ((b.buffer.drop (cp + 1)).take (b.buffer.getD cp 0)) := by
            simp only [BytePacketBuffer.getRange, if_neg hrange]
          simp only [BytePacketBuffer.readQnameLoop, if_neg hj, hg, hptr,
            hzero, hgr, if_false, if_neg hzero]
          apply ih
          omega

/-- A self-referencing compression pointer at offset p (first octet
`0xC0 + p / 256`, second octet `p % 256`) makes every pass through the
loop jump back to p; after the sixth jump the jump check fires with
ExceededJumpCount 5.  Stated for any jump count j with j + k = 6 and any
fuel above k, so it instantiates both at the loop entry and at every
intermediate state. -/
theorem readQnameLoop_selfptr {B : List Nat} {p : Nat}
    (hp : p + 1 < 512) (h0 : B.getD p 0 = 192 + p / 256)
    (h1 : B.getD (p + 1) 0 = p % 256) :
    ∀ (k j : Nat) (jflag : Bool) (pos : Nat) (delim acc : List Nat)
      (fuel : Nat), j + k = 6 → k < fuel →
      BytePacketBuffer.readQnameLoop ⟨B, pos⟩ p jflag j delim acc fuel
        = some (.error (.ExceededJumpCount 5)) := by
  have hhi : p / 256 = 0 ∨ p / 256 = 1 := by omega
  have hand : (192 + p / 256) &&& 192 = 192 := by
    rcases hhi with hq | hq <;> rw [hq] <;> decide
  have hoff : (((192 + p / 256) ^^^ 192) <<< 8) ||| p % 256 = p := by
    rcases hhi with hq | hq <;> rw [hq]
    · have hp0 : p < 256 := by omega
      simpa using Nat.mod_eq_of_lt hp0
    · rw [lor_shiftLeft_eq_add (by omega : p % 256 < 2 ^ 8)]
      have hy : ((192 + 1) ^^^ 192) = 1 := by decide
      rw [hy]
      norm_num
      omega
  intro k
  induction k with
  | zero =>
    intro j jflag pos delim acc fuel hj hf
    cases fuel with
    | zero => omega
    | succ n =>
      have hj6 : 5 < j := by omega
      simp [BytePacketBuffer.readQnameLoop, hj6]
  | succ m ih =>
    intro j jflag pos delim acc fuel hj hf
    cases fuel with
    | zero => omega
    | succ n =>
      have hj5 : ¬ 5 < j := by omega
      have hg0 : BytePacketBuffer.get ⟨B, pos⟩ p = .ok (192 + p / 256) := by
        simp only [BytePacketBuffer.get, if_neg (by omega : ¬ 512 ≤ p)]
        exact congrArg Except.ok h0
      have hg1 : ∀ pos2 : Nat,
          BytePacketBuffer.get ⟨B, pos2⟩ (p + 1) = .ok (p % 256) := by
        intro pos2
        simp only [BytePacketBuffer.get, if_neg (by omega : ¬ 512 ≤ p + 1)]
        exact congrArg Except.ok h1
      have hbif : (if (!jflag) = true then
            BytePacketBuffer.seek ⟨B, pos⟩ (p + 2) else ⟨B, pos⟩)
          = (⟨B, if (!jflag) = true then p + 2 else pos⟩ :
              BytePacketBuffer) := by
        cases jflag <;> rfl
      simp only [BytePacketBuffer.readQnameLoop, if_neg hj5, hg0]
      rw [if_pos hand]
      rw [hbif]
      simp only [hg1, hoff]
      exact ih (j + 1) true _ delim acc n (by omega) (by omega)

/-- C2: name decode terminates on every input buffer (the loop's fuel of
4096 always exceeds its decreasing measure, so the loop always yields a
result), and a self-referencing compression pointer — the tightest
circular pointer chain, which forces the jump count past the bound of
5 — makes read_qname return the ExceededJumpCount error instead of
looping forever. -/
theorem c2_qname_termination_jump_limit :
    (∀ b : BytePacketBuffer,
      (BytePacketBuffer.readQnameLoop b b.position false 0 [] []
        4096).isSome)
    ∧ (∀ (B : List Nat) (p : Nat), p + 1 < 512 →
        B.getD p 0 = 192 + p / 256 → B.getD (p + 1) 0 = p % 256 →
        BytePacketBuffer.readQname ⟨B, p⟩
          = .error (.ExceededJumpCount 5)) := by
  constructor
  · intro b
    apply readQnameLoop_total
    have hd : (512 - b.position) / 2 ≤ 256 := by omega
    omega
  · intro B p hp h0 h1
    simp only [BytePacketBuffer.readQname]
    rw [readQnameLoop_selfptr hp h0 h1 6 0 false p [] [] 4096 (by omega)
      (by omega)]
    rfl

/-- C2 (witness): the termination bound on a fresh buffer, and the
jump-count error on a buffer whose first two octets form a pointer to
offset 0 — a self-referencing pointer. -/
theorem c2_qname_termination_jump_limit_witness :
    (BytePacketBuffer.readQnameLoop BytePacketBuffer.new
        BytePacketBuffer.new.position false 0 [] [] 4096).isSome
    ∧ ((0 : Nat) + 1 < 512
      ∧ (bufferFromBytes [192, 0]).buffer.getD 0 0 = 192 + 0 / 256
      ∧ (bufferFromBytes [192, 0]).buffer.getD (0 + 1) 0 = 0 % 256
      ∧ BytePacketBuffer.readQname ⟨(bufferFromBytes [192, 0]).buffer, 0⟩
          = .error (.ExceededJumpCount 5)) :=
  ⟨c2_qname_termination_jump_limit.1 BytePacketBuffer.new,
   by decide, by decide, by decide,
   c2_qname_termination_jump_limit.2 (bufferFromBytes [192, 0]).buffer 0
     (by decide) (by decide) (by decide)⟩

/-- C4: the serialized header is id, flag octet A (byte 2), flag octet B
(byte 3), then the four u16 counts in order.  Octet A carries
recursion-desired in bit 0, truncated in bit 1, authoritative in bit 2,
the opcode in bits 3-6 and response in bit 7; octet B carries the result
code in bits 0-3, checking-disabled in bit 4, authenticated-data in bit 5,
the reserved z flag in bit 6 and recursion-available in bit 7 — each
extracted from the serialized octet exactly as DnsHeader::read does.  The
example header (recursion-desired, response, opcode 2, rescode NameError)
has octet A = 0x91 = 145 and octet B = 0x03, and DnsHeader::read on those
octets reproduces the same field values. -/
theorem c4_header_flag_layout (h : DnsHeader) (hop : h.opcode < 16) :
    (headerBytes h
      = u16be h.id ++ [(headerBytes h).getD 2 0, (headerBytes h).getD 3 0]
        ++ u16be h.questions ++ u16be h.answers
        ++ u16be h.authoritative_entries ++ u16be h.resource_entries)
    ∧ (decide (0 < ((headerBytes h).getD 2 0 &&& (1 <<< 0)))
        = h.recursion_desired)
    ∧ (decide (0 < ((headerBytes h).getD 2 0 &&& (1 <<< 1)))
        = h.truncated_message)
    ∧ (decide (0 < ((headerBytes h).getD 2 0 &&& (1 <<< 2)))
        = h.authoritative_answer)
    ∧ (((headerBytes h).getD 2 0 >>> 3) &&& 15 = h.opcode)
    ∧ (decide (0 < ((headerBytes h).getD 2 0 &&& (1 <<< 7))) = h.response)
    ∧ (ResultCode.fromNum ((headerBytes h).getD 3 0 &&& 15) = h.rescode)
    ∧ (decide (0 < ((headerBytes h).getD 3 0 &&& (1 <<< 4)))
        = h.checking_disabled)
    ∧ (decide (0 < ((headerBytes h).getD 3 0 &&& (1 <<< 5))) = h.authed_data)
    ∧ (decide (0 < ((headerBytes h).getD 3 0 &&& (1 <<< 6))) = h.z)
    ∧ (decide (0 < ((headerBytes h).getD 3 0 &&& (1 <<< 7)))
        = h.recursion_available)
    ∧ ({ DnsHeader.new with recursion_desired := true, response := true, opcode := 2, rescode := .NameError } : DnsHeader).flagsOctetA = 145
    ∧ ({ DnsHeader.new with recursion_desired := true, response := true, opcode := 2, rescode := .NameError } : DnsHeader).flagsOctetB = 3
    ∧ DnsHeader.read (bufferFromBytes [0, 0, 145, 3, 0, 0, 0, 0, 0, 0, 0, 0])
        = .ok ({ DnsHeader.new with recursion_desired := true, response := true, opcode := 2, rescode := .NameError },
            ⟨(bufferFromBytes [0, 0, 145, 3, 0, 0, 0, 0, 0, 0, 0, 0]).buffer,
              12⟩) := by
  have hA : (headerBytes h).getD 2 0 = h.flagsOctetA % 256 := rfl
  have hB : (headerBytes h).getD 3 0 = h.flagsOctetB % 256 := rfl
  obtain ⟨a1, a2, a3, a4, a5⟩ := flagsA_fields h hop
  obtain ⟨b1, b2, b3, b4, b5⟩ := flagsB_fields h
  rw [hA, hB]
  exact ⟨rfl, a1, a2, a3, a4, a5, b1, b2, b3, b4, b5,
    by decide, by decide, by decide⟩

/-- C4 (witness): the layout theorem at the example header itself, bit 0
of its serialized octet A showing recursion-desired = true. -/
theorem c4_header_flag_layout_witness :
    ({ DnsHeader.new with recursion_desired := true, response := true, opcode := 2, rescode := .NameError } : DnsHeader).opcode < 16
    ∧ decide (0 < ((headerBytes { DnsHeader.new with recursion_desired := true, response := true, opcode := 2, rescode := .NameError }).getD 2 0 &&& (1 <<< 0)))
      = ({ DnsHeader.new with recursion_desired := true, response := true, opcode := 2, rescode := .NameError } : DnsHeader).recursion_desired :=
  ⟨by decide, (c4_header_flag_layout _ (by decide)).2.1⟩

/-- Failure case of write_question_name's label loop: when every label
before position `pre.length` fits (and there is room to write them), a
label longer than 63 octets aborts the loop with
QueryLabelNameLengthExceeded carrying that label's enumerate index and
length. -/
theorem writeLabels_fail :
    ∀ (pre : List (List Nat)) {b : BytePacketBuffer} {bs : List Nat},
      BufIs b bs →
      ∀ (l : List Nat) (rest : List (List Nat)) (idx : Nat),
      (∀ l2 ∈ pre, l2.length ≤ 63 ∧ ∀ ch ∈ l2, ch < 256) →
      63 < l.length →
      bs.length + (labelsBytes pre).length ≤ 512 →
      BytePacketBuffer.writeLabels b (pre ++ l :: rest) idx
        = .error (.QueryLabelNameLengthExceeded (idx + pre.length)
            l.length) := by
  intro pre
  induction pre with
  | nil =>
    intro b bs hb l rest idx hpre hl hroom
    simp only [List.nil_append, BytePacketBuffer.writeLabels, if_pos hl,
      List.length_nil, Nat.add_zero]
  | cons q qs ih =>
    intro b bs hb l rest idx hpre hl hroom
    have hq := hpre q (by simp)
    have hroom2 : bs.length + (1 + (q.length + (labelsBytes qs).length))
        ≤ 512 := by
      simp [labelsBytes] at hroom
      omega
    obtain ⟨b1, e1, h1⟩ := writeU8_ok hb (by omega) q.length
    obtain ⟨b2, e2, h2⟩ := writeLabelBytes_ok h1 (by simp; omega) hq.2
    have hrec := ih h2 l rest (idx + 1)
      (fun x hx => hpre x (by simp [hx])) hl (by simp; omega)
    simp only [List.cons_append, BytePacketBuffer.writeLabels,
      if_neg (by omega : ¬ 63 < q.length), e1, e2, List.append_eq, hrec]
    have hn : idx + 1 + qs.length = idx + (q :: qs).length := by
      simp only [List.length_cons]
      omega
    rw [hn]

/-- C8: name encode splits on the dot octet and (i) fails with
QueryDomainNameLengthExceeded carrying the total length whenever it
exceeds 255, before anything is written; (ii) fails with
QueryLabelNameLengthExceeded carrying the label's index and length at the
first label longer than 63 octets; (iii) otherwise appends exactly the
(length, bytes) pairs of the labels followed by the terminating zero octet
(nameBytes), in which every length octet is a label length of at most 63,
so its two high bits are clear and no compression pointer is ever
emitted. -/
theorem c8_name_encode (b : BytePacketBuffer) (bs value : List Nat)
    (hb : BufIs b bs) :
    (255 < value.length →
      BytePacketBuffer.writeQuestionName b value
        = .error (.QueryDomainNameLengthExceeded value.length))
    ∧ (∀ (pre : List (List Nat)) (l : List Nat) (rest : List (List Nat)),
        value.length ≤ 255 →
        BytePacketBuffer.splitOnDot value = pre ++ l :: rest →
        (∀ l2 ∈ pre, l2.length ≤ 63 ∧ ∀ ch ∈ l2, ch < 256) →
        63 < l.length →
        bs.length + (labelsBytes pre).length ≤ 512 →
        BytePacketBuffer.writeQuestionName b value
          = .error (.QueryLabelNameLengthExceeded pre.length l.length))
    ∧ (wfName value → bs.length + (nameBytes value).length ≤ 512 →
        ∃ b', BytePacketBuffer.writeQuestionName b value = .ok b'
          ∧ BufIs b' (bs ++ nameBytes value)
          ∧ ∀ l ∈ BytePacketBuffer.splitOnDot value,
              l.length &&& 192 = 0) := by
  refine ⟨?_, ?_, ?_⟩
  · intro h
    simp only [BytePacketBuffer.writeQuestionName, if_pos h]
  · intro pre l rest hlen hsplit hpre hl hroom
    have hfail := writeLabels_fail pre hb l rest 0 hpre hl hroom
    simp only [BytePacketBuffer.writeQuestionName,
      if_neg (by omega : ¬ 255 < value.length), hsplit, hfail, Nat.zero_add]
  · intro hwf hroom
    obtain ⟨b1, e1, h1⟩ := writeQuestionName_ok hb hroom hwf.1
      (wfName_labels hwf)
    refine ⟨b1, e1, h1, ?_⟩
    intro l hl
    exact small_and_192 (by
      have := (wfName_labels hwf) l hl
      omega)

/-- C8 (witness): a 64-octet label fails with
QueryLabelNameLengthExceeded(0, 64); a 256-octet name fails with
QueryDomainNameLengthExceeded(256). -/
theorem c8_name_encode_witness :
    BufIs BytePacketBuffer.new []
    ∧ BytePacketBuffer.writeQuestionName BytePacketBuffer.new
        (List.replicate 64 97)
      = .error (.QueryLabelNameLengthExceeded 0 64)
    ∧ BytePacketBuffer.writeQuestionName BytePacketBuffer.new
        (List.replicate 256 97)
      = .error (.QueryDomainNameLengthExceeded 256) :=
  ⟨bufIs_new,
   (c8_name_encode BytePacketBuffer.new [] (List.replicate 64 97)
      bufIs_new).2.1 [] (List.replicate 64 97) [] (by decide) (by decide)
      (by simp) (by decide) (by decide),
   (c8_name_encode BytePacketBuffer.new [] (List.replicate 256 97)
      bufIs_new).1 (by decide)⟩

/-- Unknown-type records are skipped by DnsRecord::write, so a whole
section of them writes nothing and leaves the buffer unchanged. -/
theorem writeRecords_unhandled (d : List Nat) (t : QueryType)
    (dl ttl : Nat) :
    ∀ (n : Nat) (b : BytePacketBuffer),
      writeRecords (List.replicate n (DnsRecord.UNHANDLED d t dl ttl)) b
        = .ok b := by
  intro n
  induction n with
  | zero => intro b; rfl
  | succ m ih =>
    intro b
    simp only [List.replicate_succ, writeRecords, DnsRecord.write, ih]

/-- DnsPacket::write on a packet whose only section is an answer list that
writes nothing reduces to the header write with the recomputed counts
(answers count = list length as u16). -/
theorem packetWrite_skip_sections (hdr : DnsHeader) (rs : List DnsRecord)
    (hrs : ∀ b2 : BytePacketBuffer, writeRecords rs b2 = .ok b2) :
    DnsPacket.write ⟨hdr, [], rs, [], []⟩ BytePacketBuffer.new
      = DnsHeader.write { hdr with questions := 0, answers := rs.length % 65536, authoritative_entries := 0, resource_entries := 0 } BytePacketBuffer.new := by
  simp only [DnsPacket.write, List.length_nil, Nat.zero_mod]
  split
  · next e heq => exact heq.symm
  · next b heq =>
    simp only [writeQuestions, hrs, writeRecords]
    exact heq.symm

/-- C5 (counterexample): the serialized counts do not always equal the
actual section lengths.  A packet with 65536 Unknown-type answer records
(each write-skipped) encodes successfully, but `len() as u16` truncates
65536 to 0: the serialized answer count (octets 6-7 of the image) is 0
while the answer section actually holds 65536 records. -/
theorem c5_counts_counterexample :
    encodeToBytes ⟨DnsHeader.new, [],
        List.replicate 65536 (DnsRecord.UNHANDLED [] (QueryType.UNKNOWN 0) 0 0),
        [], []⟩
      = .ok (List.replicate 12 0)
    ∧ (List.replicate 12 0 : List Nat).getD 6 0 <<< 8
        ||| (List.replicate 12 0 : List Nat).getD 7 0 = 0
    ∧ (List.replicate 65536
        (DnsRecord.UNHANDLED [] (QueryType.UNKNOWN 0) 0 0)).length = 65536
    ∧ (0 : Nat) ≠ 65536 := by
  refine ⟨?_, by decide, by rw [List.length_replicate], by decide⟩
  have hskip := packetWrite_skip_sections DnsHeader.new
    (List.replicate 65536 (DnsRecord.UNHANDLED [] (QueryType.UNKNOWN 0) 0 0))
    (writeRecords_unhandled [] (QueryType.UNKNOWN 0) 0 0 65536)
  simp only [encodeToBytes, hskip, List.length_replicate]
  decide

/-- C5 (amended): packet encode overwrites the four header counts with the
section lengths truncated to u16 (`len() as u16`, i.e. length mod 2^16),
ignoring any caller-set count values; for a well-formed packet — whose
sections are shorter than 2^16 — the serialized counts (octets 4-11 of
the image) therefore equal the section lengths exactly, and the encoded
image is independent of the caller-set counts. -/
theorem c5_counts_amended (p : DnsPacket) (hwf : WFPacket p)
    (q a u r : Nat) :
    encodeToBytes { p with header := { p.header with questions := q, answers := a, authoritative_entries := u, resource_entries := r } }
      = .ok (packetBytes p)
    ∧ ((packetBytes p).drop 4).take 8
        = u16be p.questions.length ++ u16be p.answers.length
          ++ u16be p.authorities.length ++ u16be p.resources.length := by
  obtain ⟨hdr, pq, pa, pau, pre2⟩ := p
  obtain ⟨i, rd, ra, tm, aa2, op, resp, rc, cd, ad, z2, k1, k2, k3, k4⟩ := hdr
  constructor
  · exact encodeToBytes_eq hwf
  · have hu : ∀ x : Nat, u16be (x % 65536) = u16be x := by
      intro x
      simp [u16be, mod65536_shift8, mod65536_mod256]
    simp only [packetBytes, headerBytes, packetCountsHeader, hu]
    simp [u16be]

/-- C5 (witness): the amended theorem on the empty packet with caller-set
counts 7, 8, 9, 10 — all ignored, every serialized count 0. -/
theorem c5_counts_amended_witness :
    WFPacket DnsPacket.new
    ∧ (encodeToBytes { DnsPacket.new with header := { DnsPacket.new.header with questions := 7, answers := 8, authoritative_entries := 9, resource_entries := 10 } }
          = .ok (packetBytes DnsPacket.new)
      ∧ ((packetBytes DnsPacket.new).drop 4).take 8
          = u16be DnsPacket.new.questions.length
            ++ u16be DnsPacket.new.answers.length
            ++ u16be DnsPacket.new.authorities.length
            ++ u16be DnsPacket.new.resources.length) :=
  ⟨by decide, c5_counts_amended DnsPacket.new (by decide) 7 8 9 10⟩

/-- DnsQuestion::read with the wire type and class values left symbolic:
the name is decoded, then the type and class words are read and converted
with from_num — the wire class is stored via QueryClass::from_num, not
discarded. -/
theorem questionRead_raw_at {B : List Nat} {n : Nat} {pre suf nm : List Nat}
    {t c : Nat} (hnm : wfName nm) (ht : t < 65536) (hc : c < 65536)
    (hbuf : B = pre ++ nameBytes nm ++ u16be t ++ u16be c ++ suf)
    (hpos : n = pre.length)
    (hroom : pre.length + (nameBytes nm).length + 4 ≤ 512) :
    DnsQuestion.read ⟨B, n⟩
      = .ok (⟨nm, QueryType.fromNum t, QueryClass.fromNum c⟩,
          ⟨B, n + (nameBytes nm).length + 4⟩) := by
  have hlsp := wfLabel_shape hnm.2
  have hNB : (nameBytes nm).length
      = (nameBytesL (BytePacketBuffer.splitOnDot nm)).length := rfl
  have hbuf1 : B = pre ++ nameBytesL (BytePacketBuffer.splitOnDot nm)
      ++ ((t >>> 8) % 256 :: t % 256
        :: (c >>> 8) % 256 :: c % 256 :: suf) := by
    rw [hbuf]
    simp [nameBytes, u16be]
  have e1 := readQname_at hlsp hbuf1 hpos (by omega)
  have e2 := readU16_at (B := B)
    (n := n + (nameBytesL (BytePacketBuffer.splitOnDot nm)).length)
    (p := pre ++ nameBytesL (BytePacketBuffer.splitOnDot nm))
    (s := (c >>> 8) % 256 :: c % 256 :: suf)
    (a := (t >>> 8) % 256) (b := t % 256)
    (by rw [hbuf1]) (by simp [hpos]) (by omega)
  have e3 := readU16_at (B := B)
    (n := n + (nameBytesL (BytePacketBuffer.splitOnDot nm)).length + 2)
    (p := (pre ++ nameBytesL (BytePacketBuffer.splitOnDot nm))
      ++ [(t >>> 8) % 256, t % 256])
    (s := suf)
    (a := (c >>> 8) % 256) (b := c % 256)
    (by rw [hbuf1]; simp) (by simp [hpos]; omega) (by omega)
  have hv1 : QueryType.fromNum ((((t >>> 8) % 256) <<< 8) ||| t % 256)
      = QueryType.fromNum t := by
    rw [u16_recompose, Nat.mod_eq_of_lt ht]
  have hv2 : QueryClass.fromNum ((((c >>> 8) % 256) <<< 8) ||| c % 256)
      = QueryClass.fromNum c := by
    rw [u16_recompose, Nat.mod_eq_of_lt hc]
  simp only [DnsQuestion.read, e1, e2, e3, hv1, hv2, wfName_read hnm]
  have hfin : n + (nameBytes nm).length + 4
      = n + (nameBytesL (BytePacketBuffer.splitOnDot nm)).length + 2 + 2 := by
    omega
  rw [hfin]

/-- C9 (counterexample): the wire class is not discarded on read, and
write does not always emit class IN = 1.  Reading a question whose wire
class word is 3 yields q_class = CH (from_num 3), not IN; writing a
question whose class is CH emits class octets [0, 3], not IN's [0, 1]. -/
theorem c9_question_class_counterexample :
    (match DnsQuestion.read (bufferFromBytes [1, 97, 0, 0, 1, 0, 3]) with
     | .ok (q2, _) => q2.q_class
     | .error _ => .IN) = QueryClass.CH
    ∧ QueryClass.CH ≠ QueryClass.IN
    ∧ (match DnsQuestion.write ⟨[97], .A, .CH⟩ BytePacketBuffer.new with
       | .ok b2 => (b2.buffer.drop 5).take 2
       | .error _ => []) = [0, 3]
    ∧ ([0, 3] : List Nat) ≠ [0, 1] :=
  ⟨by decide, by decide, by decide, by decide⟩

/-- C9 (amended): the question codec treats the class as a first-class
field.  Write emits the name, the type as u16, then the question's own
class converted with to_num (IN = 1 only when the class is IN); read
decodes the name, then stores from_num of the wire type word and from_num
of the wire class word in the resulting question. -/
theorem c9_question_class_amended (b : BytePacketBuffer) (bs : List Nat)
    (hb : BufIs b bs) (q2 : DnsQuestion)
    (hroomw : bs.length + (questionBytes q2).length ≤ 512)
    (hname : q2.q_name.length ≤ 255)
    (hlab : ∀ l ∈ BytePacketBuffer.splitOnDot q2.q_name,
      l.length ≤ 63 ∧ ∀ ch ∈ l, ch < 256)
    {B : List Nat} {n : Nat} {pre suf nm : List Nat} {t c : Nat}
    (hnm : wfName nm) (ht : t < 65536) (hc : c < 65536)
    (hbuf : B = pre ++ nameBytes nm ++ u16be t ++ u16be c ++ suf)
    (hpos : n = pre.length)
    (hroomr : pre.length + (nameBytes nm).length + 4 ≤ 512) :
    (∃ b2, DnsQuestion.write q2 b = .ok b2
      ∧ BufIs b2 (bs ++ nameBytes q2.q_name ++ u16be q2.q_type.toNum
          ++ u16be q2.q_class.toNum))
    ∧ DnsQuestion.read ⟨B, n⟩
        = .ok (⟨nm, QueryType.fromNum t, QueryClass.fromNum c⟩,
            ⟨B, n + (nameBytes nm).length + 4⟩) := by
  constructor
  · obtain ⟨b2, e2x, h2x⟩ := questionWrite_ok hb hroomw hname hlab
    refine ⟨b2, e2x, ?_⟩
    have hassoc : bs ++ questionBytes q2
        = bs ++ nameBytes q2.q_name ++ u16be q2.q_type.toNum
          ++ u16be q2.q_class.toNum := by
      simp [questionBytes]
    rwa [hassoc] at h2x
  · exact questionRead_raw_at hnm ht hc hbuf hpos hroomr

/-- C9 (witness): the amended theorem at the question ("a", A, CH) — write
emits class octets to_num CH = 3 — and at a wire question with class word
3 — read stores from_num 3 = CH. -/
theorem c9_question_class_amended_witness :
    wfName [97]
    ∧ ((∃ b2, DnsQuestion.write ⟨[97], .A, .CH⟩ BytePacketBuffer.new
          = .ok b2
        ∧ BufIs b2 ([] ++ nameBytes [97] ++ u16be QueryType.A.toNum
            ++ u16be QueryClass.CH.toNum))
      ∧ DnsQuestion.read
            ⟨[1, 97, 0, 0, 1, 0, 3] ++ List.replicate 505 0, 0⟩
          = .ok (⟨[97], QueryType.fromNum 1, QueryClass.fromNum 3⟩,
              ⟨[1, 97, 0, 0, 1, 0, 3] ++ List.replicate 505 0,
                0 + (nameBytes [97]).length + 4⟩)) :=
  ⟨by decide,
   @c9_question_class_amended BytePacketBuffer.new [] bufIs_new
     ⟨[97], .A, .CH⟩ (by decide) (by decide) (by decide)
     ([1, 97, 0, 0, 1, 0, 3] ++ List.replicate 505 0) 0 []
     (List.replicate 505 0) [97] 1 3
     (by decide) (by decide) (by decide) (by decide) rfl (by decide)⟩
